import Mathlib

/-!
# Screen transition state machine of `src/main.c`

A shallow embedding of the entry module of the game: the global variables that
drive the fade-in / fade-out transition, the functions `ChangeToScreen`,
`TransitionToScreen`, `UpdateTransition`, `DrawTransition`, `UpdateDrawFrame`
and `main`, and theorems about them.

Modelling choices.

* The globals of `main.c` become the fields of `State`; every function of the
  module becomes a function `State → State`.
* The per-screen modules and the graphics/audio engine are external.  Each call
  made to them is appended to `State.trace`, in program order.  Pure engine
  queries (`WindowShouldClose`, `GetScreenWidth`, `GetScreenHeight`, `Fade`) are
  not recorded.
* `transAlpha` is a C `float`.  `UpdateTransition32` computes it as the code
  does, in IEEE 754 binary32 (round to nearest, ties to even: `f32`), and every
  statement about a value of alpha is made about it.  `UpdateTransition` is the
  same function with the arithmetic taken over the exact decimals; it carries
  the statements that concern the discrete variables and the call trace, on
  which the two functions agree along every run of begin and tick calls
  (`binary32_shadows_exact`).
* The enumeration `GameScreen` is declared in `screens.h`, which is not part of
  the sources at hand.  The numeric values of its members are therefore a
  parameter (`ScreenIds`); only their distinctness is used, which C demands of
  the `case` labels of one `switch`.
* The value returned by the `finish_*_screen` query of a frame is an input of
  that frame.
-/

namespace StrangeStar

/-- The four screen modules: logo, title, gameplay and ending. -/
inductive Screen where
  | logo
  | title
  | gameplay
  | ending
deriving DecidableEq, Repr

/-- Calls into the graphics/audio engine that `main.c` makes. -/
inductive Engine where
  | InitWindow
  | InitAudioDevice
  | LoadFont
  | LoadMusicStream
  | LoadSound
  | SetMusicVolume
  | PlayMusicStream
  | SetTargetFPS
  | UpdateMusicStream
  | BeginDrawing
  | ClearBackground
  | EndDrawing
  | UnloadFont
  | UnloadMusicStream
  | UnloadSound
  | CloseAudioDevice
  | CloseWindow
deriving DecidableEq, Repr

/-- One observable call made by `main.c`: a lifecycle operation of a screen
module (`init_*_screen`, `update_*_screen`, `draw_*_screen`, `unload_*_screen`,
`finish_*_screen`), an engine call, or the overlay rectangle of `DrawTransition`
together with the opacity it is drawn with. -/
inductive Call where
  | init (s : Screen)
  | update (s : Screen)
  | draw (s : Screen)
  | unload (s : Screen)
  | finish (s : Screen)
  | engine (e : Engine)
  | DrawRectangle (alpha : ℚ)
deriving DecidableEq

/-- Numeric values of the members `LOGO`, `TITLE`, `GAMEPLAY`, `ENDING` of the
enumeration `GameScreen` (declared in `screens.h`).  They are pairwise distinct,
as the labels of a C `switch` must be. -/
structure ScreenIds where
  LOGO : Int
  TITLE : Int
  GAMEPLAY : Int
  ENDING : Int
  distinct : LOGO ≠ TITLE ∧ LOGO ≠ GAMEPLAY ∧ LOGO ≠ ENDING ∧
    TITLE ≠ GAMEPLAY ∧ TITLE ≠ ENDING ∧ GAMEPLAY ≠ ENDING

/-- Modelled from the spec: the enumeration `ScreenId` lists LOGO, TITLE,
GAMEPLAY, ENDING in this order; `screens.h` is missing, so the usual C numbering
0, 1, 2, 3 is taken as the concrete instance used to evaluate the model. -/
def stdIds : ScreenIds where
  LOGO := 0
  TITLE := 1
  GAMEPLAY := 2
  ENDING := 3
  distinct := by decide

/-- Identifier of a screen module. -/
def ScreenIds.id (E : ScreenIds) : Screen → Int
  | .logo => E.LOGO
  | .title => E.TITLE
  | .gameplay => E.GAMEPLAY
  | .ending => E.ENDING

/-- The global variables of `main.c` (lines 13 and 21-25) and the trace of the
calls made so far. -/
structure State where
  currentScreen : Int
  transAlpha : ℚ
  onTransition : Bool
  transFadeOut : Bool
  transFromScreen : Int
  transToScreen : Int
  trace : List Call
deriving DecidableEq

/-- Append calls to the trace. -/
def State.log (s : State) (cs : List Call) : State :=
  { s with trace := s.trace ++ cs }

/-- The `switch` that unloads a screen (lines 107-114 and 154-161). -/
def unloadSwitch (E : ScreenIds) (screen : Int) : List Call :=
  if screen = E.LOGO then [Call.unload .logo]
  else if screen = E.TITLE then [Call.unload .title]
  else if screen = E.GAMEPLAY then [Call.unload .gameplay]
  else if screen = E.ENDING then [Call.unload .ending]
  else []

/-- The `switch` that initialises a screen (lines 117-124 and 164-171). -/
def initSwitch (E : ScreenIds) (screen : Int) : List Call :=
  if screen = E.LOGO then [Call.init .logo]
  else if screen = E.TITLE then [Call.init .title]
  else if screen = E.GAMEPLAY then [Call.init .gameplay]
  else if screen = E.ENDING then [Call.init .ending]
  else []

/-- The `switch` that draws the current screen (lines 246-253). -/
def drawSwitch (E : ScreenIds) (screen : Int) : List Call :=
  if screen = E.LOGO then [Call.draw .logo]
  else if screen = E.TITLE then [Call.draw .title]
  else if screen = E.GAMEPLAY then [Call.draw .gameplay]
  else if screen = E.ENDING then [Call.draw .ending]
  else []

/-- The `switch` of the de-initialisation in `main` (lines 79-85): it has the
cases `LOGO`, `TITLE` and `GAMEPLAY` only. -/
def teardownSwitch (E : ScreenIds) (screen : Int) : List Call :=
  if screen = E.LOGO then [Call.unload .logo]
  else if screen = E.TITLE then [Call.unload .title]
  else if screen = E.GAMEPLAY then [Call.unload .gameplay]
  else []

/-- `ChangeToScreen` (lines 104-127): unload the current screen, initialise the
next one, make it current. -/
def ChangeToScreen (E : ScreenIds) (screen : Int) (s : State) : State :=
  { s with
    trace := s.trace ++ unloadSwitch E s.currentScreen ++ initSwitch E screen
    currentScreen := screen }

/-- `TransitionToScreen` (lines 130-137). -/
def TransitionToScreen (screen : Int) (s : State) : State :=
  { s with
    onTransition := true
    transFadeOut := false
    transFromScreen := s.currentScreen
    transToScreen := screen
    transAlpha := 0 }

/-- `UpdateTransition` (lines 140-193). -/
def UpdateTransition (E : ScreenIds) (s : State) : State :=
  if !s.transFadeOut then
    let a := s.transAlpha + 0.08
    if a > 1.01 then
      { s with
        transAlpha := 1
        trace := s.trace ++ unloadSwitch E s.transFromScreen ++ initSwitch E s.transToScreen
        currentScreen := s.transToScreen
        transFadeOut := true }
    else { s with transAlpha := a }
  else
    let a := s.transAlpha - 0.05
    if a < -0.01 then
      { s with
        transAlpha := 0
        transFadeOut := false
        onTransition := false
        transFromScreen := -1
        transToScreen := -1 }
    else { s with transAlpha := a }

/-- `DrawTransition` (lines 196-199): one full-screen rectangle whose opacity is
`transAlpha`. -/
def DrawTransition (s : State) : State :=
  s.log [Call.DrawRectangle s.transAlpha]

/-- Update half of `UpdateDrawFrame` (lines 206-237).  `sig` is the value that
the `finish_*_screen` query returns in this frame, should it be made. -/
def updatePhase (E : ScreenIds) (sig : Int) (s : State) : State :=
  let s := s.log [Call.engine .UpdateMusicStream]
  if !s.onTransition then
    if s.currentScreen = E.LOGO then
      let s := s.log [Call.update .logo, Call.finish .logo]
      if sig ≠ 0 then TransitionToScreen E.TITLE s else s
    else if s.currentScreen = E.TITLE then
      let s := s.log [Call.update .title, Call.finish .title]
      if sig = 1 then TransitionToScreen E.GAMEPLAY s else s
    else if s.currentScreen = E.GAMEPLAY then
      let s := s.log [Call.update .gameplay, Call.finish .gameplay]
      if sig = 1 then TransitionToScreen E.ENDING s else s
    else if s.currentScreen = E.ENDING then
      let s := s.log [Call.update .ending, Call.finish .ending]
      if sig = 1 then TransitionToScreen E.TITLE s else s
    else s
  else UpdateTransition E s

/-- Draw half of `UpdateDrawFrame` (lines 242-260). -/
def drawPhase (E : ScreenIds) (s : State) : State :=
  let s := s.log [Call.engine .BeginDrawing, Call.engine .ClearBackground]
  let s := s.log (drawSwitch E s.currentScreen)
  let s := if s.onTransition then DrawTransition s else s
  s.log [Call.engine .EndDrawing]

/-- `UpdateDrawFrame` (lines 202-262). -/
def UpdateDrawFrame (E : ScreenIds) (sig : Int) (s : State) : State :=
  drawPhase E (updatePhase E sig s)

/-- The values of the globals when the program is loaded (lines 13, 21-25). -/
def loadState : State where
  currentScreen := 0
  transAlpha := 0
  onTransition := false
  transFadeOut := false
  transFromScreen := -1
  transToScreen := -1
  trace := []

/-- Initialisation part of `main` (lines 45-66). -/
def setup (E : ScreenIds) : State :=
  let s := loadState.log [Call.engine .InitWindow, Call.engine .InitAudioDevice,
    Call.engine .LoadFont, Call.engine .LoadMusicStream, Call.engine .LoadSound,
    Call.engine .SetMusicVolume, Call.engine .PlayMusicStream]
  let s := { s with currentScreen := E.LOGO }
  let s := s.log [Call.init .logo]
  s.log [Call.engine .SetTargetFPS]

/-- The frame loop of `main` (lines 70-73): one `UpdateDrawFrame` per element of
`sigs`, the finish signals of the successive frames, until the window closes. -/
def runFrames (E : ScreenIds) (sigs : List Int) (s : State) : State :=
  sigs.foldl (fun st sig => UpdateDrawFrame E sig st) s

/-- De-initialisation part of `main` (lines 79-94). -/
def teardown (E : ScreenIds) (s : State) : State :=
  let s := s.log (teardownSwitch E s.currentScreen)
  s.log [Call.engine .UnloadFont, Call.engine .UnloadMusicStream,
    Call.engine .UnloadSound, Call.engine .CloseAudioDevice, Call.engine .CloseWindow]

/-- `main` (lines 41-98) on the desktop platform, for a run whose frames see the
finish signals `sigs`. -/
def main (E : ScreenIds) (sigs : List Int) : State :=
  teardown E (runFrames E sigs (setup E))

/-- The next-screen table as the specification words it: LOGO → TITLE,
TITLE → GAMEPLAY, GAMEPLAY → ENDING, ENDING → TITLE. -/
def specNextScreen : Screen → Screen
  | .logo => .title
  | .title => .gameplay
  | .gameplay => .ending
  | .ending => .title

/-- Finish signals of a run that walks LOGO → TITLE → GAMEPLAY → ENDING: a
finished screen (signal 1), then 34 frames of transition, twice, then a finished
gameplay screen and the 13 frames of the fade-in towards ENDING. -/
def sigsToEnding : List Int :=
  1 :: List.replicate 34 0 ++ 1 :: List.replicate 34 0 ++ 1 :: List.replicate 13 0

/-- The state in which the fade-in of `s` ends: the screens are swapped and the
fade-out begins at full opacity. -/
def swapped (E : ScreenIds) (s : State) : State :=
  { s with
    transAlpha := 1
    trace := s.trace ++ unloadSwitch E s.transFromScreen ++ initSwitch E s.transToScreen
    currentScreen := s.transToScreen
    transFadeOut := true }

/-- The state in which the fade-out of `s` ends: the controller is inactive. -/
def settled (s : State) : State :=
  { s with
    transAlpha := 0
    transFadeOut := false
    onTransition := false
    transFromScreen := -1
    transToScreen := -1 }

/-- States reachable from the state set up by `main` by `TransitionToScreen`
(begin) with any target and by `UpdateTransition` (tick), the latter only while
a transition is active. -/
inductive Reach (E : ScreenIds) : State → Prop where
  | init : Reach E (setup E)
  | begin (t : Int) (s : State) : Reach E s → Reach E (TransitionToScreen t s)
  | tick (s : State) : Reach E s → s.onTransition = true → Reach E (UpdateTransition E s)

/-- States reachable from the state set up by `main` by frames with arbitrary
finish signals as well as by begin and tick calls (tick only while a transition
is active). -/
inductive ReachFrames (E : ScreenIds) : State → Prop where
  | init : ReachFrames E (setup E)
  | frame (sig : Int) (s : State) : ReachFrames E s → ReachFrames E (UpdateDrawFrame E sig s)
  | begin (t : Int) (s : State) : ReachFrames E s → ReachFrames E (TransitionToScreen t s)
  | tick (s : State) : ReachFrames E s → s.onTransition = true →
      ReachFrames E (UpdateTransition E s)

/-- The inactive configuration: when no transition is active, both screen
variables of the transition hold -1 and alpha is 0. -/
def InactiveConfig (s : State) : Prop :=
  s.onTransition = false →
    s.transFromScreen = -1 ∧ s.transToScreen = -1 ∧ s.transAlpha = 0

/-- The condition under which the frame dispatcher begins a transition when
the screen `A` is current: `finish_logo_screen()` is tested for being non-zero
(line 215), the other three for being equal to 1 (lines 221, 227, 232). -/
def finishAccepted : Screen → Int → Bool
  | .logo, sig => decide (sig ≠ 0)
  | .title, sig => decide (sig = 1)
  | .gameplay, sig => decide (sig = 1)
  | .ending, sig => decide (sig = 1)

/-- Whether a call initialises or unloads a screen. -/
def Call.isLifecycle : Call → Bool
  | .init _ => true
  | .unload _ => true
  | _ => false

/-- Effect of one call on the set of initialised screens. -/
def trackInit (live : Finset Screen) : Call → Finset Screen
  | .init A => insert A live
  | .unload A => live.erase A
  | _ => live

/-- The set of screens that are initialised after the calls of a trace: those
whose init has been called and not followed by their unload. -/
def initialised (tr : List Call) : Finset Screen :=
  tr.foldl trackInit ∅

/-- No init call of the trace is made for a screen that is initialised at that
moment, `live` being the screens initialised before the trace. -/
def noDoubleInit : Finset Screen → List Call → Bool
  | _, [] => true
  | live, Call.init A :: rest => decide (A ∉ live) && noDoubleInit (insert A live) rest
  | live, c :: rest => noDoubleInit (trackInit live c) rest

/-- What the frame loop maintains: the current screen is one of the four, it is
the one initialised screen, no init call was made for a screen that was
initialised at that moment, and while a transition fades in its source is the
current screen and its target is one of the four. -/
def OneScreenLive (E : ScreenIds) (s : State) : Prop :=
  ∃ A : Screen, s.currentScreen = E.id A ∧ initialised s.trace = {A} ∧
    noDoubleInit ∅ s.trace = true ∧
    (s.onTransition = true → s.transFadeOut = false →
      s.transFromScreen = s.currentScreen ∧ ∃ B : Screen, s.transToScreen = E.id B)

/-- Finish signals of a run that walks LOGO → TITLE: the logo screen finishes in
the first frame, then the 34 frames of the transition follow. -/
def sigsToTitle : List Int :=
  1 :: List.replicate 34 0

/-- A state with a transition fading in from LOGO to TITLE whose alpha has the
given value. -/
def fadingInAt (a : ℚ) : State :=
  { TransitionToScreen stdIds.TITLE (setup stdIds) with transAlpha := a }

/-- A state with a transition fading out on TITLE whose alpha has the given
value. -/
def fadingOutAt (a : ℚ) : State :=
  { swapped stdIds (TransitionToScreen stdIds.TITLE (setup stdIds)) with transAlpha := a }

/-- Helper of `ilog2`: the binary logarithm by repeated halving, at most `fuel`
times. -/
def log2Fuel : Nat → Nat → Nat
  | 0, _ => 0
  | fuel + 1, n => if n < 2 then 0 else log2Fuel fuel (n / 2) + 1

/-- Binary logarithm of a natural number, rounded down (0 for 0). -/
def ilog2 (n : Nat) : Nat :=
  log2Fuel n n

/-- The power `2 ^ e` for an integer exponent, as a rational. -/
def pow2 (e : Int) : ℚ :=
  mkRat (2 ^ e.toNat) (2 ^ (-e).toNat)

/-- The binary exponent of a non-zero rational: the largest `e` with
`2 ^ e ≤ |x|`.  With `x = n / d` it is `ilog2 n - ilog2 d` or one less. -/
def binade (x : ℚ) : Int :=
  if 2 ^ ((ilog2 x.num.natAbs : Int) - (ilog2 x.den : Int)).toNat * x.den ≤
      x.num.natAbs * 2 ^ (-((ilog2 x.num.natAbs : Int) - (ilog2 x.den : Int))).toNat then
    (ilog2 x.num.natAbs : Int) - (ilog2 x.den : Int)
  else (ilog2 x.num.natAbs : Int) - (ilog2 x.den : Int) - 1

/-- Round to the nearest integer, a tie going to the even one. -/
def roundHalfEven (q : ℚ) : Int :=
  if q - ⌊q⌋ < 1 / 2 then ⌊q⌋
  else if 1 / 2 < q - ⌊q⌋ then ⌊q⌋ + 1
  else if ⌊q⌋ % 2 = 0 then ⌊q⌋ else ⌊q⌋ + 1

/-- Spacing of the binary32 numbers around `x`: 24 significant bits, the
exponent not below that of the subnormal numbers. -/
def ulp32 (x : ℚ) : ℚ :=
  pow2 (max (binade x) (-126) - 23)

/-- The binary32 number nearest to `x`, ties to even: what a C `float`
operation stores when its exact result is `x` (IEEE 754 default rounding).
Overflow to infinity is not modelled; it needs `|x| ≥ 2 ^ 128`, which adding
0.08 to or subtracting 0.05 from a finite `float` never yields. -/
def f32 (x : ℚ) : ℚ :=
  roundHalfEven (x / ulp32 x) * ulp32 x

/-- `UpdateTransition` (lines 140-193) in the arithmetic of the code:
`transAlpha` is a `float`, so `+=` and `-=` round to binary32, and the literals
`0.08f`, `0.05f`, `1.01f`, `-0.01f` are the binary32 numbers nearest to the
decimals.  Every operation rounds its result to binary32 (`FLT_EVAL_METHOD` 0,
as on x86-64 and WebAssembly), and `transAlpha` holds a finite binary32 number
in every state the program reaches. -/
def UpdateTransition32 (E : ScreenIds) (s : State) : State :=
  if !s.transFadeOut then
    let a := f32 (s.transAlpha + f32 0.08)
    if a > f32 1.01 then
      { s with
        transAlpha := 1
        trace := s.trace ++ unloadSwitch E s.transFromScreen ++ initSwitch E s.transToScreen
        currentScreen := s.transToScreen
        transFadeOut := true }
    else { s with transAlpha := a }
  else
    let a := f32 (s.transAlpha - f32 0.05)
    if a < f32 (-0.01) then
      { s with
        transAlpha := 0
        transFadeOut := false
        onTransition := false
        transFromScreen := -1
        transToScreen := -1 }
    else { s with transAlpha := a }

/-- `UpdateTransition32` with its two step literals turned into parameters:
`sIn` stands for the value of `0.08f` (line 145) and `sOut` for that of `0.05f`
(line 182); the thresholds are the code's. -/
def tickWith32 (E : ScreenIds) (sIn sOut : ℚ) (s : State) : State :=
  if !s.transFadeOut then
    let a := f32 (s.transAlpha + sIn)
    if a > f32 1.01 then
      { s with
        transAlpha := 1
        trace := s.trace ++ unloadSwitch E s.transFromScreen ++ initSwitch E s.transToScreen
        currentScreen := s.transToScreen
        transFadeOut := true }
    else { s with transAlpha := a }
  else
    let a := f32 (s.transAlpha - sOut)
    if a < f32 (-0.01) then
      { s with
        transAlpha := 0
        transFadeOut := false
        onTransition := false
        transFromScreen := -1
        transToScreen := -1 }
    else { s with transAlpha := a }

/-- The value of `transAlpha` after `k ≤ 12` ticks of a fade-in: the binary32
sums 0 + 0.08f + ... + 0.08f. -/
def fadeInAlpha32 : Nat → ℚ
  | 0 => 0
  | 1 => 5368709 / 67108864
  | 2 => 5368709 / 33554432
  | 3 => 16106127 / 67108864
  | 4 => 5368709 / 16777216
  | 5 => 3355443 / 8388608
  | 6 => 8053063 / 16777216
  | 7 => 1174405 / 2097152
  | 8 => 10737417 / 16777216
  | 9 => 6039797 / 8388608
  | 10 => 13421771 / 16777216
  | 11 => 3690987 / 4194304
  | 12 => 16106125 / 16777216
  | _ => 0

/-- The value of `transAlpha` after `j ≤ 20` ticks of a fade-out: the binary32
differences 1 - 0.05f - ... - 0.05f. -/
def fadeOutAlpha32 : Nat → ℚ
  | 0 => 1
  | 1 => 15938355 / 16777216
  | 2 => 7549747 / 8388608
  | 3 => 14260633 / 16777216
  | 4 => 3355443 / 4194304
  | 5 => 12582911 / 16777216
  | 6 => 5872025 / 8388608
  | 7 => 10905189 / 16777216
  | 8 => 1258291 / 2097152
  | 9 => 9227467 / 16777216
  | 10 => 4194303 / 8388608
  | 11 => 7549745 / 16777216
  | 12 => 1677721 / 4194304
  | 13 => 5872023 / 16777216
  | 14 => 2516581 / 8388608
  | 15 => 16777205 / 67108864
  | 16 => 6710881 / 33554432
  | 17 => 10066319 / 67108864
  | 18 => 1677719 / 16777216
  | 19 => 13421731 / 268435456
  | 20 => -21 / 134217728
  | _ => 0

/-- States reachable from the state set up by `main` by `TransitionToScreen`
(begin) with any target and by `UpdateTransition32` (tick), the latter only
while a transition is active. -/
inductive Reach32 (E : ScreenIds) : State → Prop where
  | init : Reach32 E (setup E)
  | begin (t : Int) (s : State) : Reach32 E s → Reach32 E (TransitionToScreen t s)
  | tick (s : State) : Reach32 E s → s.onTransition = true →
      Reach32 E (UpdateTransition32 E s)

/-- The values that alpha takes along the code's trajectories: `fadeInAlpha32 k`,
`k ≤ 12`, while fading in, and `fadeOutAlpha32 j`, `j ≤ 20`, while fading out. -/
def AlphaOnGrid32 (s : State) : Prop :=
  (s.transFadeOut = false → ∃ k : Nat, k ≤ 12 ∧ s.transAlpha = fadeInAlpha32 k) ∧
  (s.transFadeOut = true → ∃ j : Nat, j ≤ 20 ∧ s.transAlpha = fadeOutAlpha32 j)

/-- The discrete variables of a state and its trace: everything but
`transAlpha`. -/
def State.discrete (s : State) : Int × Bool × Bool × Int × Int × List Call :=
  (s.currentScreen, s.onTransition, s.transFadeOut, s.transFromScreen, s.transToScreen,
    s.trace)

/-! ## Elementary facts about the dispatch switches -/

theorem unloadSwitch_id (E : ScreenIds) (A : Screen) :
    unloadSwitch E (E.id A) = [Call.unload A] := by
  obtain ⟨h1, h2, h3, h4, h5, h6⟩ := E.distinct
  cases A <;> simp [unloadSwitch, ScreenIds.id, Ne.symm, *]

theorem initSwitch_id (E : ScreenIds) (A : Screen) :
    initSwitch E (E.id A) = [Call.init A] := by
  obtain ⟨h1, h2, h3, h4, h5, h6⟩ := E.distinct
  cases A <;> simp [initSwitch, ScreenIds.id, Ne.symm, *]

theorem drawSwitch_id (E : ScreenIds) (A : Screen) :
    drawSwitch E (E.id A) = [Call.draw A] := by
  obtain ⟨h1, h2, h3, h4, h5, h6⟩ := E.distinct
  cases A <;> simp [drawSwitch, ScreenIds.id, Ne.symm, *]

theorem tick_fadeIn_below (E : ScreenIds) (s : State) (h : s.transFadeOut = false)
    (ha : s.transAlpha + 0.08 ≤ 1.01) :
    UpdateTransition E s = { s with transAlpha := s.transAlpha + 0.08 } := by
  simp [UpdateTransition, h, not_lt.mpr ha]

theorem tick_fadeIn_above (E : ScreenIds) (s : State) (h : s.transFadeOut = false)
    (ha : 1.01 < s.transAlpha + 0.08) :
    UpdateTransition E s =
      { s with
        transAlpha := 1
        trace := s.trace ++ unloadSwitch E s.transFromScreen ++ initSwitch E s.transToScreen
        currentScreen := s.transToScreen
        transFadeOut := true } := by
  simp [UpdateTransition, h, ha]

theorem tick_fadeOut_above (E : ScreenIds) (s : State) (h : s.transFadeOut = true)
    (ha : -0.01 ≤ s.transAlpha - 0.05) :
    UpdateTransition E s = { s with transAlpha := s.transAlpha - 0.05 } := by
  simp [UpdateTransition, h, not_lt.mpr ha]

theorem tick_fadeOut_below (E : ScreenIds) (s : State) (h : s.transFadeOut = true)
    (ha : s.transAlpha - 0.05 < -0.01) :
    UpdateTransition E s =
      { s with
        transAlpha := 0
        transFadeOut := false
        onTransition := false
        transFromScreen := -1
        transToScreen := -1 } := by
  simp [UpdateTransition, h, ha]

/-! ## Runs of ticks inside one phase -/

theorem fadeIn_iterate (E : ScreenIds) (k : Nat) (s : State) (h : s.transFadeOut = false)
    (ha : s.transAlpha + 0.08 * k ≤ 1.01) :
    (UpdateTransition E)^[k] s = { s with transAlpha := s.transAlpha + 0.08 * k } := by
  induction k with
  | zero => simp
  | succ n ih =>
    push_cast at ha
    have hn : s.transAlpha + 0.08 * n ≤ 1.01 := by linarith
    rw [Function.iterate_succ_apply', ih hn, tick_fadeIn_below E { s with transAlpha := s.transAlpha + 0.08 * n } h
      (by simp only; linarith)]
    simp only [State.mk.injEq, and_true, true_and]
    push_cast
    ring

theorem fadeOut_iterate (E : ScreenIds) (k : Nat) (s : State) (h : s.transFadeOut = true)
    (ha : -0.01 ≤ s.transAlpha - 0.05 * k) :
    (UpdateTransition E)^[k] s = { s with transAlpha := s.transAlpha - 0.05 * k } := by
  induction k with
  | zero => simp
  | succ n ih =>
    push_cast at ha
    have hn : -0.01 ≤ s.transAlpha - 0.05 * n := by linarith
    rw [Function.iterate_succ_apply', ih hn, tick_fadeOut_above E { s with transAlpha := s.transAlpha - 0.05 * n } h
      (by simp only; linarith)]
    simp only [State.mk.injEq, and_true, true_and]
    push_cast
    ring

/-! ## A whole cycle, started with `transFadeOut = false` and `transAlpha = 0` -/

theorem cycle_fadeIn (E : ScreenIds) (s : State) (h : s.transFadeOut = false)
    (h0 : s.transAlpha = 0) (k : Nat) (hk : k ≤ 12) :
    (UpdateTransition E)^[k] s = { s with transAlpha := 0.08 * k } := by
  have hq : (k : ℚ) ≤ 12 := by exact_mod_cast hk
  rw [fadeIn_iterate E k s h (by rw [h0]; linarith), h0, zero_add]

theorem cycle_swap (E : ScreenIds) (s : State) (h : s.transFadeOut = false)
    (h0 : s.transAlpha = 0) :
    (UpdateTransition E)^[13] s = swapped E s := by
  rw [Function.iterate_succ_apply', cycle_fadeIn E s h h0 12 le_rfl, tick_fadeIn_above]
  · rfl
  · exact h
  · norm_num

theorem cycle_fadeOut (E : ScreenIds) (s : State) (h : s.transFadeOut = false)
    (h0 : s.transAlpha = 0) (j : Nat) (hj : j ≤ 20) :
    (UpdateTransition E)^[13 + j] s = { swapped E s with transAlpha := 1 - 0.05 * j } := by
  have hq : (j : ℚ) ≤ 20 := by exact_mod_cast hj
  rw [Nat.add_comm, Function.iterate_add_apply, cycle_swap E s h h0,
    fadeOut_iterate E j (swapped E s) rfl (by simp only [swapped]; linarith)]
  rfl

theorem cycle_settled (E : ScreenIds) (s : State) (h : s.transFadeOut = false)
    (h0 : s.transAlpha = 0) :
    (UpdateTransition E)^[34] s = settled (swapped E s) := by
  rw [Function.iterate_succ_apply', cycle_fadeOut E s h h0 20 le_rfl, tick_fadeOut_below]
  · rfl
  · rfl
  · norm_num

theorem cycle_late (E : ScreenIds) (s : State) (h : s.transFadeOut = false)
    (h0 : s.transAlpha = 0) (j : Nat) (h13 : 13 ≤ j) (h33 : j ≤ 33) :
    (UpdateTransition E)^[j] s =
      { swapped E s with transAlpha := 1 - 0.05 * ((j - 13 : Nat) : ℚ) } := by
  have hj : j = 13 + (j - 13) := by omega
  rw [hj, cycle_fadeOut E s h h0 (j - 13) (by omega), ← hj]

theorem cycle_active (E : ScreenIds) (s : State) (h : s.transFadeOut = false)
    (h0 : s.transAlpha = 0) (j : Nat) (hj : j < 34) :
    ((UpdateTransition E)^[j] s).onTransition = s.onTransition := by
  rcases Nat.lt_or_ge j 13 with hlt | hge
  · rw [cycle_fadeIn E s h h0 j (by omega)]
  · rw [cycle_late E s h h0 j hge (by omega)]
    rfl

theorem drawPhase_eq (E : ScreenIds) (s : State) :
    drawPhase E s =
      { s with
        trace := s.trace ++ [Call.engine .BeginDrawing, Call.engine .ClearBackground] ++
          drawSwitch E s.currentScreen ++
          (if s.onTransition then [Call.DrawRectangle s.transAlpha] else []) ++
          [Call.engine .EndDrawing] } := by
  cases h : s.onTransition <;> simp [drawPhase, State.log, DrawTransition, h]

theorem frame_begin_logo (E : ScreenIds) (sig : Int) (s : State)
    (hcur : s.currentScreen = E.LOGO) (hoff : s.onTransition = false) (hsig : sig ≠ 0) :
    UpdateDrawFrame E sig s =
      { TransitionToScreen E.TITLE s with
        trace := s.trace ++ [Call.engine .UpdateMusicStream, Call.update .logo,
          Call.finish .logo, Call.engine .BeginDrawing, Call.engine .ClearBackground,
          Call.draw .logo, Call.DrawRectangle 0, Call.engine .EndDrawing] } := by
  have hd : drawSwitch E E.LOGO = [Call.draw .logo] := drawSwitch_id E .logo
  simp [UpdateDrawFrame, drawPhase_eq, updatePhase, State.log, TransitionToScreen, hcur, hoff,
    hsig, hd]

/-! ## The frame dispatcher outside a transition -/

/-- C3. Next-screen table of the frame dispatcher.  In a state with no
transition active whose current screen is one of the four screens `A`, a frame
calls `A`'s update exactly once and then queries `A`'s finished signal (the
calls of the frame are listed in full).  If the signal is 1 the frame's state is
that of `TransitionToScreen` with the target the table gives for `A`
(LOGO → TITLE, TITLE → GAMEPLAY, GAMEPLAY → ENDING, ENDING → TITLE), and the
overlay is drawn with alpha 0; if the signal is 0 every variable keeps its
value. -/
theorem frame_next_screen_table (E : ScreenIds) (A : Screen) (sig : Int) (s : State)
    (hoff : s.onTransition = false) (hcur : s.currentScreen = E.id A) :
    (sig = 1 →
      UpdateDrawFrame E sig s =
        { TransitionToScreen (E.id (specNextScreen A)) s with
          trace := s.trace ++ [Call.engine .UpdateMusicStream, Call.update A, Call.finish A,
            Call.engine .BeginDrawing, Call.engine .ClearBackground, Call.draw A,
            Call.DrawRectangle 0, Call.engine .EndDrawing] }) ∧
    (sig = 0 →
      UpdateDrawFrame E sig s =
        { s with
          trace := s.trace ++ [Call.engine .UpdateMusicStream, Call.update A, Call.finish A,
            Call.engine .BeginDrawing, Call.engine .ClearBackground, Call.draw A,
            Call.engine .EndDrawing] }) := by
  have hd := drawSwitch_id E A
  obtain ⟨h1, h2, h3, h4, h5, h6⟩ := E.distinct
  cases A <;> simp only [ScreenIds.id] at hd hcur <;> constructor <;> intro hs <;> subst hs <;>
    simp [UpdateDrawFrame, drawPhase_eq, updatePhase, State.log, TransitionToScreen, hcur,
      hoff, hd, specNextScreen, ScreenIds.id, Ne.symm, *]

/-- Witness for C3: the title screen finishes while it is current. -/
theorem frame_next_screen_table_witness :
    UpdateDrawFrame stdIds 1 { setup stdIds with currentScreen := stdIds.TITLE } =
      { TransitionToScreen stdIds.GAMEPLAY { setup stdIds with currentScreen := stdIds.TITLE } with
        trace := (setup stdIds).trace ++ [Call.engine .UpdateMusicStream, Call.update .title,
          Call.finish .title, Call.engine .BeginDrawing, Call.engine .ClearBackground,
          Call.draw .title, Call.DrawRectangle 0, Call.engine .EndDrawing] } :=
  (frame_next_screen_table stdIds .title 1 { setup stdIds with currentScreen := stdIds.TITLE }
    rfl rfl).1 rfl

/-! ## Teardown -/

/-- C4, at the failing input.  When the frame loop ends with ENDING current, the
de-initialisation of `main` calls no unload operation of any screen (the calls
it makes are the five engine calls), whereas the unload switch that
`ChangeToScreen` and `UpdateTransition` share calls `unload_ending_screen` for
the same identifier.  The run `sigsToEnding` of `main` reaches that situation:
the ending screen is initialised and current when the loop ends, and `main`
returns without unloading it. -/
theorem teardown_skips_ending (E : ScreenIds) (s : State) :
    (teardown E { s with currentScreen := E.ENDING }).trace =
        s.trace ++ [Call.engine .UnloadFont, Call.engine .UnloadMusicStream,
          Call.engine .UnloadSound, Call.engine .CloseAudioDevice, Call.engine .CloseWindow] ∧
      unloadSwitch E E.ENDING = [Call.unload .ending] ∧
      (runFrames stdIds sigsToEnding (setup stdIds)).currentScreen = stdIds.ENDING ∧
      Call.init .ending ∈ (main stdIds sigsToEnding).trace ∧
      Call.unload .ending ∉ (main stdIds sigsToEnding).trace := by
  obtain ⟨h1, h2, h3, h4, h5, h6⟩ := E.distinct
  refine ⟨?_, unloadSwitch_id E .ending, ?_, ?_, ?_⟩
  · simp [teardown, teardownSwitch, State.log, Ne.symm, *]
  · decide!
  · decide!
  · decide!

/-! ## Invariants of the reachable states -/

theorem Reach.toFrames {E : ScreenIds} {s : State} (h : Reach E s) : ReachFrames E s := by
  induction h with
  | init => exact ReachFrames.init
  | begin t s _ ih => exact ReachFrames.begin t s ih
  | tick s _ hon ih => exact ReachFrames.tick s ih hon

theorem reach_iterate (E : ScreenIds) (s : State) (h : Reach E s) (n : Nat)
    (hon : ∀ k : Nat, k < n → ((UpdateTransition E)^[k] s).onTransition = true) :
    Reach E ((UpdateTransition E)^[n] s) := by
  induction n with
  | zero => exact h
  | succ m ih =>
    rw [Function.iterate_succ_apply']
    exact Reach.tick _ (ih fun k hk => hon k (Nat.lt_succ_of_lt hk)) (hon m (Nat.lt_succ_self m))

/-! ### The inactive configuration -/

theorem updatePhase_cases (E : ScreenIds) (sig : Int) (s : State) :
    (s.onTransition = false ∧
        ∃ t cs, updatePhase E sig s = TransitionToScreen t (s.log cs)) ∨
      (s.onTransition = false ∧ ∃ cs, updatePhase E sig s = s.log cs) ∨
      (s.onTransition = true ∧
        updatePhase E sig s = UpdateTransition E (s.log [Call.engine .UpdateMusicStream])) := by
  cases hon : s.onTransition with
  | true => exact Or.inr (Or.inr ⟨rfl, by simp [updatePhase, State.log, hon]⟩)
  | false =>
    simp only [updatePhase, State.log, hon, Bool.not_false, if_true, true_and, false_and,
      or_false, Bool.false_eq_true]
    split_ifs
    all_goals first
      | exact Or.inl ⟨_, _, by simp [State.log, List.append_assoc]; rfl⟩
      | exact Or.inr ⟨_, by simp [State.log, List.append_assoc]; rfl⟩

theorem inactiveConfig_tick (E : ScreenIds) (s : State) (hon : s.onTransition = true) :
    InactiveConfig (UpdateTransition E s) := by
  cases hf : s.transFadeOut with
  | false =>
    by_cases ha : 1.01 < s.transAlpha + 0.08
    · rw [tick_fadeIn_above E s hf ha]; intro h'; simp [hon] at h'
    · rw [tick_fadeIn_below E s hf (le_of_not_lt ha)]; intro h'; simp [hon] at h'
  | true =>
    by_cases ha : s.transAlpha - 0.05 < -0.01
    · rw [tick_fadeOut_below E s hf ha]; intro _; exact ⟨rfl, rfl, rfl⟩
    · rw [tick_fadeOut_above E s hf (le_of_not_lt ha)]; intro h'; simp [hon] at h'

theorem inactiveConfig_frame (E : ScreenIds) (sig : Int) (s : State) (h : InactiveConfig s) :
    InactiveConfig (UpdateDrawFrame E sig s) := by
  unfold UpdateDrawFrame
  rw [drawPhase_eq]
  rcases updatePhase_cases E sig s with ⟨_, t, cs, he⟩ | ⟨hoff, cs, he⟩ | ⟨hon, he⟩
  · rw [he]; intro h'; simp [TransitionToScreen] at h'
  · rw [he]; intro _; exact h hoff
  · rw [he]; exact inactiveConfig_tick E _ hon

theorem reachFrames_inactiveConfig (E : ScreenIds) (s : State) (h : ReachFrames E s) :
    InactiveConfig s := by
  induction h with
  | init => intro _; simp [setup, State.log, loadState]
  | frame sig s _ ih => exact inactiveConfig_frame E sig s ih
  | begin t s _ _ => intro h'; simp [TransitionToScreen] at h'
  | tick s _ hon _ => exact inactiveConfig_tick E s hon

/-- C6. Inactive-configuration invariant: in the initial state and in every
state reachable from it by frames with arbitrary finish signals and by begin and
tick calls (tick only while active), whenever `onTransition` is false,
`transFromScreen` and `transToScreen` are both -1 and alpha is exactly 0. -/
theorem inactive_configuration (E : ScreenIds) (s : State) (h : ReachFrames E s)
    (hoff : s.onTransition = false) :
    s.transFromScreen = -1 ∧ s.transToScreen = -1 ∧ s.transAlpha = 0 :=
  reachFrames_inactiveConfig E s h hoff

/-- Witness for C6: the state at the end of a whole cycle, 34 ticks after
begin. -/
theorem inactive_configuration_witness :
    ((UpdateTransition stdIds)^[34] (TransitionToScreen 1 (setup stdIds))).transFromScreen = -1 ∧
      ((UpdateTransition stdIds)^[34] (TransitionToScreen 1 (setup stdIds))).transToScreen = -1 ∧
      ((UpdateTransition stdIds)^[34] (TransitionToScreen 1 (setup stdIds))).transAlpha = 0 :=
  inactive_configuration stdIds _
    (reach_iterate stdIds _ (Reach.begin 1 _ Reach.init) 34
      (fun k hk => cycle_active stdIds _ rfl rfl k hk)).toFrames
    (by rw [cycle_settled stdIds _ rfl rfl]; rfl)

/-! ## `TransitionToScreen` -/

/-- C7. Postcondition of begin: for every state and every target identifier,
`TransitionToScreen` yields a state that is active, not fading out, with
`transFromScreen` the current screen, `transToScreen` the target and alpha 0; the
current screen is unchanged and no call is made (the trace is unchanged). -/
theorem begin_postcondition (t : Int) (s : State) :
    (TransitionToScreen t s).onTransition = true ∧
      (TransitionToScreen t s).transFadeOut = false ∧
      (TransitionToScreen t s).transFromScreen = s.currentScreen ∧
      (TransitionToScreen t s).transToScreen = t ∧
      (TransitionToScreen t s).transAlpha = 0 ∧
      (TransitionToScreen t s).currentScreen = s.currentScreen ∧
      (TransitionToScreen t s).trace = s.trace :=
  ⟨rfl, rfl, rfl, rfl, rfl, rfl, rfl⟩

theorem switch_calls (E : ScreenIds) (x y : Int) (c : Call)
    (hc : c ∈ unloadSwitch E x ++ initSwitch E y) :
    (∃ A : Screen, c = Call.unload A) ∨ (∃ A : Screen, c = Call.init A) := by
  rcases List.mem_append.mp hc with h | h
  · left
    unfold unloadSwitch at h
    split_ifs at h <;> simp at h <;> exact ⟨_, h⟩
  · right
    unfold initSwitch at h
    split_ifs at h <;> simp at h <;> exact ⟨_, h⟩

theorem tick_trace (E : ScreenIds) (s : State) :
    ∃ l : List Call, (UpdateTransition E s).trace = s.trace ++ l ∧
      ∀ c ∈ l, (∃ A : Screen, c = Call.unload A) ∨ (∃ A : Screen, c = Call.init A) := by
  cases hf : s.transFadeOut with
  | false =>
    by_cases ha : 1.01 < s.transAlpha + 0.08
    · rw [tick_fadeIn_above E s hf ha]
      exact ⟨unloadSwitch E s.transFromScreen ++ initSwitch E s.transToScreen,
        by simp [List.append_assoc], fun c hc => switch_calls E _ _ c hc⟩
    · rw [tick_fadeIn_below E s hf (le_of_not_lt ha)]
      exact ⟨[], by simp, fun c hc => by simp at hc⟩
  | true =>
    by_cases ha : s.transAlpha - 0.05 < -0.01
    · rw [tick_fadeOut_below E s hf ha]
      exact ⟨[], by simp, fun c hc => by simp at hc⟩
    · rw [tick_fadeOut_above E s hf (le_of_not_lt ha)]
      exact ⟨[], by simp, fun c hc => by simp at hc⟩

theorem updatePhase_active (E : ScreenIds) (sig : Int) (s : State)
    (hon : s.onTransition = true) :
    updatePhase E sig s = UpdateTransition E (s.log [Call.engine .UpdateMusicStream]) := by
  simp [updatePhase, State.log, hon]

/-- C12. Update is suspended during a transition.  For every state in which a
transition is active at the start of a frame, whatever the finish signal, the
update phase is the music call followed by exactly one `UpdateTransition`
(`TransitionToScreen` is not on this path), and the calls it adds to the trace
after the music call are unload or init calls only: no screen's update is
called and no finished signal is queried.  The frame is that update phase
followed by the draw phase. -/
theorem update_suspended (E : ScreenIds) (sig : Int) (s : State)
    (hon : s.onTransition = true) :
    updatePhase E sig s = UpdateTransition E (s.log [Call.engine .UpdateMusicStream]) ∧
    UpdateDrawFrame E sig s =
      drawPhase E (UpdateTransition E (s.log [Call.engine .UpdateMusicStream])) ∧
    ∃ l : List Call,
      (updatePhase E sig s).trace = s.trace ++ Call.engine .UpdateMusicStream :: l ∧
      ∀ A : Screen, Call.update A ∉ l ∧ Call.finish A ∉ l := by
  have hu := updatePhase_active E sig s hon
  refine ⟨hu, by rw [UpdateDrawFrame, hu], ?_⟩
  obtain ⟨l, hl, hcalls⟩ := tick_trace E (s.log [Call.engine .UpdateMusicStream])
  refine ⟨l, by rw [hu, hl]; simp [State.log], fun A => ⟨fun h => ?_, fun h => ?_⟩⟩
  · rcases hcalls _ h with ⟨B, hB⟩ | ⟨B, hB⟩ <;> cases hB
  · rcases hcalls _ h with ⟨B, hB⟩ | ⟨B, hB⟩ <;> cases hB

/-- Witness for C12: the frame after the one in which the logo screen
finished. -/
theorem update_suspended_witness :
    updatePhase stdIds 1 (UpdateDrawFrame stdIds 1 (setup stdIds)) =
      UpdateTransition stdIds
        ((UpdateDrawFrame stdIds 1 (setup stdIds)).log [Call.engine .UpdateMusicStream]) :=
  (update_suspended stdIds 1 (UpdateDrawFrame stdIds 1 (setup stdIds))
    (by rw [frame_begin_logo stdIds 1 (setup stdIds) rfl rfl (by decide)]; rfl)).1

/-! ## Unknown screen identifiers -/

theorem switches_unknown (E : ScreenIds) (x : Int) (hx : ∀ A : Screen, x ≠ E.id A) :
    initSwitch E x = [] ∧ unloadSwitch E x = [] ∧ drawSwitch E x = [] ∧
      teardownSwitch E x = [] := by
  have h1 := hx .logo; have h2 := hx .title; have h3 := hx .gameplay; have h4 := hx .ending
  simp only [ScreenIds.id] at h1 h2 h3 h4
  simp [initSwitch, unloadSwitch, drawSwitch, teardownSwitch, h1, h2, h3, h4]

/-- C13. Unknown screen identifiers are no-ops.  For every identifier `x` that
is none of LOGO, TITLE, GAMEPLAY, ENDING, the init switch, the unload switch, the
draw switch and the teardown switch make no call.  `ChangeToScreen` from and to
such identifiers makes no call, and a frame that starts with `x` current and no
transition active makes only the engine calls (music, begin drawing, clear,
end drawing): no screen operation is called and every variable keeps its
value.  All functions are total: there is no error outcome. -/
theorem unknown_screen_noop (E : ScreenIds) (x : Int) (hx : ∀ A : Screen, x ≠ E.id A) :
    (initSwitch E x = [] ∧ unloadSwitch E x = [] ∧ drawSwitch E x = [] ∧
      teardownSwitch E x = []) ∧
    (∀ s : State, s.currentScreen = x → ChangeToScreen E x s = s) ∧
    (∀ (sig : Int) (s : State), s.currentScreen = x → s.onTransition = false →
      UpdateDrawFrame E sig s =
        { s with
          trace := s.trace ++ [Call.engine .UpdateMusicStream, Call.engine .BeginDrawing,
            Call.engine .ClearBackground, Call.engine .EndDrawing] }) := by
  obtain ⟨hi, hu, hd, ht⟩ := switches_unknown E x hx
  have h1 := hx .logo; have h2 := hx .title; have h3 := hx .gameplay; have h4 := hx .ending
  simp only [ScreenIds.id] at h1 h2 h3 h4
  refine ⟨⟨hi, hu, hd, ht⟩, fun s hs => ?_, fun sig s hs hoff => ?_⟩
  · subst hs
    simp [ChangeToScreen, hi, hu]
  · subst hs
    simp [UpdateDrawFrame, drawPhase_eq, updatePhase, State.log, hoff, hd, h1, h2, h3, h4]

/-- Witness for C13: the sentinel -1 under the numbering 0, 1, 2, 3. -/
theorem unknown_screen_noop_witness :
    (initSwitch stdIds (-1) = [] ∧ unloadSwitch stdIds (-1) = [] ∧ drawSwitch stdIds (-1) = [] ∧
      teardownSwitch stdIds (-1) = []) ∧
    UpdateDrawFrame stdIds 1 { setup stdIds with currentScreen := -1 } =
      { setup stdIds with
        currentScreen := -1
        trace := (setup stdIds).trace ++ [Call.engine .UpdateMusicStream,
          Call.engine .BeginDrawing, Call.engine .ClearBackground, Call.engine .EndDrawing] } :=
  have h := unknown_screen_noop stdIds (-1) (by intro A; cases A <;> decide)
  ⟨h.1, h.2.2 1 { setup stdIds with currentScreen := -1 } rfl rfl⟩

/-! ## One initialised screen -/

theorem trackInit_neutral (live : Finset Screen) (c : Call) (hc : c.isLifecycle = false) :
    trackInit live c = live := by
  cases c <;> simp_all [trackInit, Call.isLifecycle]

theorem foldl_trackInit_neutral (l : List Call) (live : Finset Screen)
    (hl : ∀ c ∈ l, c.isLifecycle = false) : l.foldl trackInit live = live := by
  induction l generalizing live with
  | nil => rfl
  | cons c rest ih =>
    rw [List.foldl_cons, trackInit_neutral live c (hl c (List.mem_cons_self _ _))]
    exact ih live fun d hd => hl d (List.mem_cons_of_mem _ hd)

theorem noDoubleInit_step (live : Finset Screen) (c : Call) (rest : List Call) :
    noDoubleInit live (c :: rest) =
      ((match c with
        | Call.init A => decide (A ∉ live)
        | _ => true) && noDoubleInit (trackInit live c) rest) := by
  cases c <;> simp [noDoubleInit, trackInit]

theorem noDoubleInit_append (l1 l2 : List Call) (live : Finset Screen) :
    noDoubleInit live (l1 ++ l2) =
      (noDoubleInit live l1 && noDoubleInit (l1.foldl trackInit live) l2) := by
  induction l1 generalizing live with
  | nil => simp [noDoubleInit]
  | cons c rest ih =>
    rw [List.cons_append, noDoubleInit_step, noDoubleInit_step, ih, List.foldl_cons,
      Bool.and_assoc]

theorem noDoubleInit_neutral (l : List Call) (live : Finset Screen)
    (hl : ∀ c ∈ l, c.isLifecycle = false) : noDoubleInit live l = true := by
  induction l generalizing live with
  | nil => rfl
  | cons c rest ih =>
    have hc := hl c (List.mem_cons_self _ _)
    rw [noDoubleInit_step, trackInit_neutral live c hc,
      ih live fun d hd => hl d (List.mem_cons_of_mem _ hd)]
    cases c <;> simp_all [Call.isLifecycle]

theorem drawSwitch_neutral (E : ScreenIds) (x : Int) :
    ∀ c ∈ drawSwitch E x, c.isLifecycle = false := by
  intro c hc
  unfold drawSwitch at hc
  split_ifs at hc <;> simp at hc <;> subst hc <;> rfl

theorem drawPhase_trace (E : ScreenIds) (s : State) :
    ∃ d : List Call, drawPhase E s = { s with trace := s.trace ++ d } ∧
      ∀ c ∈ d, c.isLifecycle = false := by
  refine ⟨[Call.engine .BeginDrawing, Call.engine .ClearBackground] ++
      drawSwitch E s.currentScreen ++
      (if s.onTransition then [Call.DrawRectangle s.transAlpha] else []) ++
      [Call.engine .EndDrawing], ?_, ?_⟩
  · rw [drawPhase_eq]; simp [List.append_assoc]
  · intro c hc
    simp only [List.mem_append, List.mem_cons, List.mem_singleton, List.mem_nil_iff,
      or_false] at hc
    rcases hc with ((h | h) | h) | h
    · rcases h with h | h <;> subst h <;> rfl
    · exact drawSwitch_neutral E _ c h
    · split_ifs at h <;> simp at h; subst h; rfl
    · subst h; rfl

theorem updatePhase_known (E : ScreenIds) (A : Screen) (sig : Int) (s : State)
    (hoff : s.onTransition = false) (hcur : s.currentScreen = E.id A) :
    updatePhase E sig s =
      if finishAccepted A sig then
        TransitionToScreen (E.id (specNextScreen A))
          (s.log [Call.engine .UpdateMusicStream, Call.update A, Call.finish A])
      else s.log [Call.engine .UpdateMusicStream, Call.update A, Call.finish A] := by
  obtain ⟨h1, h2, h3, h4, h5, h6⟩ := E.distinct
  cases A <;> simp only [ScreenIds.id] at hcur <;>
    by_cases hs0 : sig = 0 <;> by_cases hs1 : sig = 1 <;>
    simp [updatePhase, State.log, TransitionToScreen, hcur, hoff, specNextScreen, ScreenIds.id,
      finishAccepted, Ne.symm, *]

theorem live_append_neutral (tr l : List Call) (A : Screen)
    (hl : ∀ c ∈ l, c.isLifecycle = false) (hi : initialised tr = {A})
    (hn : noDoubleInit ∅ tr = true) :
    initialised (tr ++ l) = {A} ∧ noDoubleInit ∅ (tr ++ l) = true := by
  constructor
  · unfold initialised at hi ⊢
    rw [List.foldl_append, hi, foldl_trackInit_neutral l _ hl]
  · rw [noDoubleInit_append, hn, noDoubleInit_neutral l _ hl]
    rfl

theorem live_append_swap (tr : List Call) (A B : Screen) (hi : initialised tr = {A})
    (hn : noDoubleInit ∅ tr = true) :
    initialised (tr ++ [Call.unload A, Call.init B]) = {B} ∧
      noDoubleInit ∅ (tr ++ [Call.unload A, Call.init B]) = true := by
  unfold initialised at hi
  constructor
  · unfold initialised
    rw [List.foldl_append, hi]
    simp [trackInit]
  · rw [noDoubleInit_append, hn, hi]
    simp [noDoubleInit, trackInit]

theorem oneScreenLive_setup (E : ScreenIds) : OneScreenLive E (setup E) :=
  ⟨.logo, rfl, by simp [setup, State.log, loadState, initialised, trackInit],
    by simp [setup, State.log, loadState, noDoubleInit, trackInit],
    fun h => by simp [setup, State.log, loadState] at h⟩

theorem oneScreenLive_frame (E : ScreenIds) (sig : Int) (s : State) (h : OneScreenLive E s) :
    OneScreenLive E (UpdateDrawFrame E sig s) := by
  obtain ⟨A, hcur, hinit, hnd, hfi⟩ := h
  obtain ⟨d, hd, hdn⟩ := drawPhase_trace E (updatePhase E sig s)
  unfold UpdateDrawFrame
  rw [hd]
  have hmusic : ∀ c ∈ [Call.engine Engine.UpdateMusicStream], c.isLifecycle = false := by
    intro c hc; simp at hc; subst hc; rfl
  cases hon : s.onTransition with
  | false =>
    have hcs : ∀ c ∈ [Call.engine Engine.UpdateMusicStream, Call.update A, Call.finish A],
        c.isLifecycle = false := by
      intro c hc; simp at hc; rcases hc with h | h | h <;> subst h <;> rfl
    obtain ⟨h1, h2⟩ := live_append_neutral _ _ A hcs hinit hnd
    obtain ⟨h3, h4⟩ := live_append_neutral _ _ A hdn h1 h2
    rw [updatePhase_known E A sig s hon hcur]
    cases finishAccepted A sig with
    | false => exact ⟨A, hcur, h3, h4, fun h' => by simp [State.log, hon] at h'⟩
    | true => exact ⟨A, hcur, h3, h4, fun _ _ => ⟨rfl, specNextScreen A, rfl⟩⟩
  | true =>
    obtain ⟨h1, h2⟩ := live_append_neutral _ _ A hmusic hinit hnd
    rw [updatePhase_active E sig s hon]
    cases hf : s.transFadeOut with
    | false =>
      obtain ⟨hfrom, B, hto⟩ := hfi hon hf
      by_cases ha : 1.01 < s.transAlpha + 0.08
      · rw [tick_fadeIn_above E (s.log [Call.engine .UpdateMusicStream]) hf ha]
        have hu : unloadSwitch E s.transFromScreen = [Call.unload A] := by
          rw [hfrom, hcur, unloadSwitch_id]
        have hi : initSwitch E s.transToScreen = [Call.init B] := by
          rw [hto, initSwitch_id]
        obtain ⟨h3, h4⟩ := live_append_swap _ A B h1 h2
        obtain ⟨h5, h6⟩ := live_append_neutral _ _ B hdn h3 h4
        refine ⟨B, hto, ?_, ?_, fun _ h' => by simp at h'⟩
        · simpa [State.log, hu, hi, List.append_assoc] using h5
        · simpa [State.log, hu, hi, List.append_assoc] using h6
      · rw [tick_fadeIn_below E (s.log [Call.engine .UpdateMusicStream]) hf (le_of_not_lt ha)]
        obtain ⟨h3, h4⟩ := live_append_neutral _ _ A hdn h1 h2
        exact ⟨A, hcur, h3, h4, fun _ _ => ⟨hfrom, B, hto⟩⟩
    | true =>
      obtain ⟨h3, h4⟩ := live_append_neutral _ _ A hdn h1 h2
      by_cases ha : s.transAlpha - 0.05 < -0.01
      · rw [tick_fadeOut_below E (s.log [Call.engine .UpdateMusicStream]) hf ha]
        exact ⟨A, hcur, h3, h4, fun h' => by simp at h'⟩
      · rw [tick_fadeOut_above E (s.log [Call.engine .UpdateMusicStream]) hf (le_of_not_lt ha)]
        exact ⟨A, hcur, h3, h4, fun _ h' => by simp [State.log, hf] at h'⟩

theorem runFrames_induction (E : ScreenIds) (P : State → Prop)
    (hstep : ∀ (sig : Int) (s : State), P s → P (UpdateDrawFrame E sig s))
    (sigs : List Int) (s : State) (hs : P s) : P (runFrames E sigs s) := by
  induction sigs generalizing s with
  | nil => exact hs
  | cons sig rest ih => exact ih (UpdateDrawFrame E sig s) (hstep sig s hs)

theorem oneScreenLive_run (E : ScreenIds) (sigs : List Int) :
    OneScreenLive E (runFrames E sigs (setup E)) :=
  runFrames_induction E (OneScreenLive E) (oneScreenLive_frame E) sigs (setup E)
    (oneScreenLive_setup E)

/-- C15. Exactly one screen is initialised.  After every frame of every run of
the frame dispatcher from the state that `main` sets up (LOGO current and
initialised, controller inactive), whatever the finish signals: the current
screen is one of the four screens, the set of initialised screens (init called
and not unloaded since) is exactly that screen, while a transition is active and
fading in `transFromScreen` is the current screen (so the midpoint swap unloads
the current screen), and no init call of the trace was made for a screen that
was initialised at that moment. -/
theorem one_screen_initialised (E : ScreenIds) (sigs : List Int) :
    ∃ A : Screen,
      (runFrames E sigs (setup E)).currentScreen = E.id A ∧
      initialised (runFrames E sigs (setup E)).trace = {A} ∧
      ((runFrames E sigs (setup E)).onTransition = true →
        (runFrames E sigs (setup E)).transFadeOut = false →
        (runFrames E sigs (setup E)).transFromScreen =
          (runFrames E sigs (setup E)).currentScreen) ∧
      noDoubleInit ∅ (runFrames E sigs (setup E)).trace = true := by
  obtain ⟨A, hcur, hinit, hnd, hfi⟩ := oneScreenLive_run E sigs
  exact ⟨A, hcur, hinit, fun h1 h2 => (hfi h1 h2).1, hnd⟩

/-! ## The draw phase -/

theorem drawPhase_currentScreen (E : ScreenIds) (s : State) :
    (drawPhase E s).currentScreen = s.currentScreen := by
  rw [drawPhase_eq]

/-- C16. Draw phase.  In a frame whose current screen at the end of the update
phase is one of the four screens `A`, the draw phase makes, after the calls of
the update phase, the calls begin drawing, clear, draw of `A` (exactly one draw
call), then the overlay rectangle with opacity alpha if and only if a
transition is active at the end of the update phase, then end drawing, and
changes no variable.  In every frame of every run from the state set up by
`main` the current screen at the end of the update phase is one of the four.
In particular the overlay is drawn with alpha 0 in the frame that begins a
transition, and it is not drawn in the frame whose tick completes the
fade-out. -/
theorem draw_phase (E : ScreenIds) (sig : Int) :
    (∀ (s : State) (A : Screen), (updatePhase E sig s).currentScreen = E.id A →
      UpdateDrawFrame E sig s =
        { updatePhase E sig s with
          trace := (updatePhase E sig s).trace ++
            [Call.engine .BeginDrawing, Call.engine .ClearBackground, Call.draw A] ++
            (if (updatePhase E sig s).onTransition then
              [Call.DrawRectangle (updatePhase E sig s).transAlpha] else []) ++
            [Call.engine .EndDrawing] }) ∧
    (∀ sigs : List Int, ∃ A : Screen,
      (updatePhase E sig (runFrames E sigs (setup E))).currentScreen = E.id A) ∧
    (∀ (s : State) (A : Screen), s.onTransition = false → s.currentScreen = E.id A →
      finishAccepted A sig = true →
      (UpdateDrawFrame E sig s).trace =
        s.trace ++ [Call.engine .UpdateMusicStream, Call.update A, Call.finish A,
          Call.engine .BeginDrawing, Call.engine .ClearBackground, Call.draw A,
          Call.DrawRectangle 0, Call.engine .EndDrawing]) ∧
    (∀ (s : State) (A : Screen), s.onTransition = true → s.transFadeOut = true →
      s.transAlpha - 0.05 < -0.01 → s.currentScreen = E.id A →
      (UpdateDrawFrame E sig s).onTransition = false ∧
      (UpdateDrawFrame E sig s).trace =
        s.trace ++ [Call.engine .UpdateMusicStream, Call.engine .BeginDrawing,
          Call.engine .ClearBackground, Call.draw A, Call.engine .EndDrawing]) := by
  refine ⟨fun s A hA => ?_, fun sigs => ?_, fun s A hoff hcur hacc => ?_,
    fun s A hon hf ha hcur => ?_⟩
  · have hd : drawSwitch E (updatePhase E sig s).currentScreen = [Call.draw A] := by
      rw [hA, drawSwitch_id]
    rw [UpdateDrawFrame, drawPhase_eq, hd]
    simp [List.append_assoc]
  · obtain ⟨A, hcur, _⟩ := oneScreenLive_run E (sigs ++ [sig])
    refine ⟨A, ?_⟩
    rw [runFrames, List.foldl_append] at hcur
    simpa [UpdateDrawFrame, drawPhase_currentScreen] using hcur
  · rw [UpdateDrawFrame, drawPhase_eq, updatePhase_known E A sig s hoff hcur, hacc]
    have hd : drawSwitch E s.currentScreen = [Call.draw A] := by rw [hcur, drawSwitch_id]
    simp [TransitionToScreen, State.log, hd]
  · rw [UpdateDrawFrame, drawPhase_eq, updatePhase_active E sig s hon,
      tick_fadeOut_below E (s.log [Call.engine .UpdateMusicStream]) hf ha]
    have hd : drawSwitch E s.currentScreen = [Call.draw A] := by rw [hcur, drawSwitch_id]
    simp [State.log, hd]

/-! ## The finish signal -/

/-- C17, as the code has it.  In a frame with no transition active and one of
the four screens `A` current: on LOGO the frame begins a transition exactly when
the finish signal is non-zero; on TITLE, GAMEPLAY and ENDING it begins one
exactly when the signal equals 1, every other value being ignored like 0.  When
a transition begins its target is the table's screen for `A` and alpha is 0;
otherwise the transition variables and the current screen keep their values. -/
theorem finish_signal_acceptance (E : ScreenIds) (A : Screen) (sig : Int) (s : State)
    (hoff : s.onTransition = false) (hcur : s.currentScreen = E.id A) :
    (A = .logo → ((UpdateDrawFrame E sig s).onTransition = true ↔ sig ≠ 0)) ∧
    (A ≠ .logo → ((UpdateDrawFrame E sig s).onTransition = true ↔ sig = 1)) ∧
    ((UpdateDrawFrame E sig s).onTransition = true →
      (UpdateDrawFrame E sig s).transToScreen = E.id (specNextScreen A) ∧
      (UpdateDrawFrame E sig s).transFromScreen = E.id A ∧
      (UpdateDrawFrame E sig s).transFadeOut = false ∧
      (UpdateDrawFrame E sig s).transAlpha = 0 ∧
      (UpdateDrawFrame E sig s).currentScreen = E.id A) ∧
    ((UpdateDrawFrame E sig s).onTransition = false →
      (UpdateDrawFrame E sig s).transToScreen = s.transToScreen ∧
      (UpdateDrawFrame E sig s).transFromScreen = s.transFromScreen ∧
      (UpdateDrawFrame E sig s).transFadeOut = s.transFadeOut ∧
      (UpdateDrawFrame E sig s).transAlpha = s.transAlpha ∧
      (UpdateDrawFrame E sig s).currentScreen = s.currentScreen) := by
  have hfr : UpdateDrawFrame E sig s = drawPhase E (updatePhase E sig s) := rfl
  rw [hfr, drawPhase_eq, updatePhase_known E A sig s hoff hcur]
  cases hacc : finishAccepted A sig with
  | false =>
    refine ⟨fun hA => ?_, fun hA => ?_, fun h => ?_, fun _ => ⟨rfl, rfl, rfl, rfl, rfl⟩⟩
    · subst hA; simpa [finishAccepted, State.log, hoff] using hacc
    · cases A <;> first | exact absurd rfl hA | simpa [finishAccepted, State.log, hoff] using hacc
    · simp [State.log, hoff] at h
  | true =>
    refine ⟨fun hA => ?_, fun hA => ?_, fun _ => ⟨rfl, hcur, rfl, rfl, hcur⟩, fun h => ?_⟩
    · subst hA; simpa [finishAccepted, State.log, TransitionToScreen] using hacc
    · cases A <;> first
        | exact absurd rfl hA
        | simpa [finishAccepted, State.log, TransitionToScreen] using hacc
    · simp [State.log, TransitionToScreen] at h

/-- Witness for C17 (amended): the title screen reports 2; no transition
begins, since 2 is not 1. -/
theorem finish_signal_acceptance_witness :
    ((UpdateDrawFrame stdIds 2 { setup stdIds with currentScreen := stdIds.TITLE }).onTransition
      = true ↔ (2 : Int) = 1) :=
  (finish_signal_acceptance stdIds .title 2 { setup stdIds with currentScreen := stdIds.TITLE }
    rfl rfl).2.1 (by decide)

/-- Counterexample to C17 as stated: after the run `sigsToTitle` of the frame
loop the title screen is current and no transition is active; a frame in which
`finish_title_screen` returns the non-zero value 2 begins no transition. -/
theorem nonzero_signal_ignored_on_title :
    (runFrames stdIds sigsToTitle (setup stdIds)).currentScreen = stdIds.TITLE ∧
      (runFrames stdIds sigsToTitle (setup stdIds)).onTransition = false ∧
      (UpdateDrawFrame stdIds 2
        (runFrames stdIds sigsToTitle (setup stdIds))).onTransition = false := by
  decide!

/-! ## Transitions started by the frame dispatcher -/

/-- C20. Phase flag consistency.  In every state reachable from the initial
state by begin calls and tick calls (tick only while active): if `transFadeOut`
is true then `onTransition` is true and the current screen is `transToScreen`;
and `transFadeOut` is false whenever `onTransition` is false. -/
theorem phase_flag_consistency (E : ScreenIds) (s : State) (h : Reach E s) :
    (s.transFadeOut = true → s.onTransition = true ∧ s.currentScreen = s.transToScreen) ∧
    (s.onTransition = false → s.transFadeOut = false) := by
  have key : s.transFadeOut = true →
      s.onTransition = true ∧ s.currentScreen = s.transToScreen := by
    induction h with
    | init => intro h'; simp [setup, State.log, loadState] at h'
    | begin t s _ _ => intro h'; simp [TransitionToScreen] at h'
    | tick s _ hon ih =>
      cases hf : s.transFadeOut with
      | false =>
        by_cases ha : 1.01 < s.transAlpha + 0.08
        · rw [tick_fadeIn_above E s hf ha]; intro _; exact ⟨hon, rfl⟩
        · rw [tick_fadeIn_below E s hf (le_of_not_lt ha)]; intro h'; simp [hf] at h'
      | true =>
        by_cases ha : s.transAlpha - 0.05 < -0.01
        · rw [tick_fadeOut_below E s hf ha]; intro h'; simp at h'
        · rw [tick_fadeOut_above E s hf (le_of_not_lt ha)]; intro _; exact ih hf
  refine ⟨key, fun hoff => ?_⟩
  cases hf : s.transFadeOut with
  | false => rfl
  | true => have := (key hf).1; rw [hoff] at this; cases this

/-- Witness for C20: the state after begin and the 13 ticks of the fade-in. -/
theorem phase_flag_consistency_witness :
    ((UpdateTransition stdIds)^[13] (TransitionToScreen 1 (setup stdIds))).transFadeOut = true ∧
      ((UpdateTransition stdIds)^[13] (TransitionToScreen 1 (setup stdIds))).onTransition = true ∧
      ((UpdateTransition stdIds)^[13] (TransitionToScreen 1 (setup stdIds))).currentScreen =
        ((UpdateTransition stdIds)^[13] (TransitionToScreen 1 (setup stdIds))).transToScreen :=
  have hf : ((UpdateTransition stdIds)^[13]
      (TransitionToScreen 1 (setup stdIds))).transFadeOut = true := by
    rw [cycle_swap stdIds _ rfl rfl]; rfl
  have h := phase_flag_consistency stdIds _
    (reach_iterate stdIds _ (Reach.begin 1 _ Reach.init) 13
      (fun k hk => cycle_active stdIds _ rfl rfl k (by omega)))
  ⟨hf, (h.1 hf).1, (h.1 hf).2⟩

/-! ## Binary32 rounding -/

theorem log2Fuel_eq (fuel n : Nat) (h : n ≤ fuel) : log2Fuel fuel n = Nat.log2 n := by
  induction fuel generalizing n with
  | zero =>
    have : n = 0 := by omega
    subst this
    simp [log2Fuel, Nat.log2_zero]
  | succ m ih =>
    rw [log2Fuel, Nat.log2]
    by_cases h2 : n < 2
    · simp [h2, Nat.not_le.mpr h2]
    · have h2' : n ≥ 2 := by omega
      simp only [h2, if_false, h2', if_true]
      rw [ih (n / 2) (by omega)]

theorem ilog2_eq (n : Nat) : ilog2 n = Nat.log2 n :=
  log2Fuel_eq n n le_rfl

theorem pow2_eq (e : Int) : pow2 e = (2 : ℚ) ^ e := by
  unfold pow2
  rw [Rat.mkRat_eq_div]
  rcases le_total 0 e with h | h
  · obtain ⟨n, rfl⟩ := Int.eq_ofNat_of_zero_le h
    simp
  · obtain ⟨n, hn⟩ := Int.eq_ofNat_of_zero_le (neg_nonneg.mpr h)
    have he : e = -(n : Int) := by omega
    subst he
    simp [zpow_neg]

theorem pow2_pos (e : Int) : 0 < pow2 e := by
  rw [pow2_eq]; positivity

theorem pow2_eq_div (e : Int) :
    (2 : ℚ) ^ e = ((2 ^ e.toNat : Nat) : ℚ) / ((2 ^ (-e).toNat : Nat) : ℚ) := by
  rw [← pow2_eq, pow2, Rat.mkRat_eq_div]
  push_cast
  rfl

theorem abs_eq_natAbs_div (x : ℚ) : |x| = (x.num.natAbs : ℚ) / (x.den : ℚ) := by
  have hd : (0 : ℚ) < x.den := by exact_mod_cast x.den_pos
  conv_lhs => rw [← Rat.num_div_den x]
  rw [abs_div, abs_of_pos hd, Nat.cast_natAbs, Int.cast_abs]

theorem binade_spec (x : ℚ) (hx : x ≠ 0) : (2 : ℚ) ^ binade x ≤ |x| := by
  have hd : (0 : ℚ) < x.den := by exact_mod_cast x.den_pos
  have hn0 : x.num.natAbs ≠ 0 := by
    simpa [Int.natAbs_eq_zero] using hx
  rw [abs_eq_natAbs_div]
  unfold binade
  rw [ilog2_eq, ilog2_eq]
  split_ifs with h
  · rw [pow2_eq_div, div_le_div_iff₀ (by positivity) hd]
    exact_mod_cast h
  · have h1 : (2 : ℚ) ^ (Nat.log2 x.num.natAbs) ≤ x.num.natAbs := by
      exact_mod_cast Nat.log2_self_le hn0
    have h2 : (x.den : ℚ) < 2 ^ (Nat.log2 x.den + 1) := by
      exact_mod_cast (Nat.lt_log2_self (n := x.den))
    have h3 : (2 : ℚ) ^ ((Nat.log2 x.num.natAbs : Int) - (Nat.log2 x.den : Int) - 1) =
        2 ^ (Nat.log2 x.num.natAbs) / 2 ^ (Nat.log2 x.den + 1) := by
      rw [sub_sub, zpow_sub₀ (by norm_num : (2 : ℚ) ≠ 0)]
      norm_cast
    rw [h3, div_le_div_iff₀ (by positivity) hd]
    calc (2 : ℚ) ^ (Nat.log2 x.num.natAbs) * x.den
        ≤ x.num.natAbs * x.den := mul_le_mul_of_nonneg_right h1 hd.le
      _ ≤ x.num.natAbs * 2 ^ (Nat.log2 x.den + 1) :=
        mul_le_mul_of_nonneg_left h2.le (Nat.cast_nonneg _)

theorem roundHalfEven_cases (q : ℚ) :
    roundHalfEven q = ⌊q⌋ ∨ (roundHalfEven q = ⌊q⌋ + 1 ∧ 1 / 2 ≤ q - ⌊q⌋) := by
  unfold roundHalfEven
  split_ifs with h1 h2 h3
  · exact Or.inl rfl
  · exact Or.inr ⟨rfl, h2.le⟩
  · exact Or.inl rfl
  · exact Or.inr ⟨rfl, not_lt.mp h1⟩

theorem roundHalfEven_le (q : ℚ) (M : Int) (h : q ≤ M) : roundHalfEven q ≤ M := by
  have hf : ⌊q⌋ ≤ M := by
    have := Int.floor_le q
    exact_mod_cast (this.trans h)
  rcases roundHalfEven_cases q with h1 | ⟨h1, h2⟩
  · rw [h1]; exact hf
  · rw [h1]
    have hlt : (⌊q⌋ : ℚ) < M := by linarith
    have : ⌊q⌋ < M := by exact_mod_cast hlt
    omega

theorem le_roundHalfEven (q : ℚ) (M : Int) (h : (M : ℚ) ≤ q) : M ≤ roundHalfEven q := by
  have hf : M ≤ ⌊q⌋ := Int.le_floor.mpr h
  rcases roundHalfEven_cases q with h1 | ⟨h1, _⟩ <;> rw [h1] <;> omega

theorem ulp32_pos (x : ℚ) : 0 < ulp32 x := pow2_pos _

theorem f32_nonneg (x : ℚ) (hx : 0 ≤ x) : 0 ≤ f32 x := by
  have hq : ((0 : Int) : ℚ) ≤ x / ulp32 x := by
    simpa using div_nonneg hx (ulp32_pos x).le
  have := le_roundHalfEven _ 0 hq
  exact mul_nonneg (by exact_mod_cast this) (ulp32_pos x).le

theorem f32_nonpos (x : ℚ) (hx : x ≤ 0) : f32 x ≤ 0 := by
  have hq : x / ulp32 x ≤ ((0 : Int) : ℚ) := by
    simpa using div_nonpos_of_nonpos_of_nonneg hx (ulp32_pos x).le
  have := roundHalfEven_le _ 0 hq
  exact mul_nonpos_of_nonpos_of_nonneg (by exact_mod_cast this) (ulp32_pos x).le

theorem binade_le (x : ℚ) (hx : x ≠ 0) (k : Int) (h : |x| < 2 ^ k) : binade x < k := by
  by_contra hc
  have hk : k ≤ binade x := not_lt.mp hc
  have h1 : (2 : ℚ) ^ k ≤ 2 ^ binade x := zpow_le_zpow_right₀ (by norm_num) hk
  have := binade_spec x hx
  linarith

theorem f32_le_one (x : ℚ) (hx : x ≤ 1) : f32 x ≤ 1 := by
  rcases le_or_lt x 0 with h0 | h0
  · exact (f32_nonpos x h0).trans (by norm_num)
  have hb : binade x < 1 := binade_le x h0.ne' 1 (by rw [abs_of_pos h0]; linarith)
  have he : max (binade x) (-126) - 23 ≤ 0 := by
    have : max (binade x) (-126) ≤ 0 := max_le (by omega) (by norm_num)
    omega
  obtain ⟨n, hn⟩ := Int.eq_ofNat_of_zero_le (neg_nonneg.mpr he)
  have hu : ulp32 x = 1 / ((2 ^ n : Int) : ℚ) := by
    unfold ulp32
    rw [pow2_eq]
    have : max (binade x) (-126) - 23 = -(n : Int) := by omega
    rw [this, zpow_neg, zpow_natCast]
    push_cast
    rw [one_div]
  have hup := ulp32_pos x
  have hq : x / ulp32 x ≤ ((2 ^ n : Int) : ℚ) := by
    rw [div_le_iff₀ hup, hu]
    have : (0 : ℚ) < ((2 ^ n : Int) : ℚ) := by push_cast; positivity
    rw [mul_one_div_cancel this.ne']
    exact hx
  have hr := roundHalfEven_le _ _ hq
  have hr' : (roundHalfEven (x / ulp32 x) : ℚ) ≤ ((2 ^ n : Int) : ℚ) := by exact_mod_cast hr
  unfold f32
  calc (roundHalfEven (x / ulp32 x) : ℚ) * ulp32 x ≤ ((2 ^ n : Int) : ℚ) * ulp32 x :=
        mul_le_mul_of_nonneg_right hr' hup.le
    _ = 1 := by
        rw [hu]
        have : (0 : ℚ) < ((2 ^ n : Int) : ℚ) := by push_cast; positivity
        rw [mul_one_div_cancel this.ne']

/-- Checks of `f32` on a value that needs rounding, on ties (to the even
neighbour, for either sign), on a number that is already binary32, and on
subnormal numbers. -/
theorem f32_samples :
    f32 (1 / 3) = 11184811 / 33554432 ∧
      f32 16777217 = 16777216 ∧ f32 16777219 = 16777220 ∧ f32 (-16777219) = -16777220 ∧
      f32 (119 / 128) = 119 / 128 ∧
      f32 (1 / 2 ^ 149) = 1 / 2 ^ 149 ∧ f32 (1 / 2 ^ 150) = 0 ∧
      f32 (3 / 2 ^ 150) = 2 / 2 ^ 149 := by
  decide!

/-! ## One tick in binary32, case by case -/

theorem lit008 : f32 0.08 = 5368709 / 67108864 := by decide!

theorem lit005 : f32 0.05 = 13421773 / 268435456 := by decide!

theorem lit101 : f32 1.01 = 4236247 / 4194304 := by decide!

theorem litm001 : f32 (-0.01) = -5368709 / 536870912 := by decide!

theorem tick32_fadeIn_below (E : ScreenIds) (s : State) (h : s.transFadeOut = false)
    (ha : f32 (s.transAlpha + f32 0.08) ≤ f32 1.01) :
    UpdateTransition32 E s = { s with transAlpha := f32 (s.transAlpha + f32 0.08) } := by
  simp [UpdateTransition32, h, not_lt.mpr ha]

theorem tick32_fadeIn_above (E : ScreenIds) (s : State) (h : s.transFadeOut = false)
    (ha : f32 1.01 < f32 (s.transAlpha + f32 0.08)) :
    UpdateTransition32 E s = swapped E s := by
  simp [UpdateTransition32, h, ha, swapped]

theorem tick32_fadeOut_above (E : ScreenIds) (s : State) (h : s.transFadeOut = true)
    (ha : f32 (-0.01) ≤ f32 (s.transAlpha - f32 0.05)) :
    UpdateTransition32 E s = { s with transAlpha := f32 (s.transAlpha - f32 0.05) } := by
  simp [UpdateTransition32, h, not_lt.mpr ha]

theorem tick32_fadeOut_below (E : ScreenIds) (s : State) (h : s.transFadeOut = true)
    (ha : f32 (s.transAlpha - f32 0.05) < f32 (-0.01)) :
    UpdateTransition32 E s = settled s := by
  simp [UpdateTransition32, h, ha, settled]

/-! ## The trajectory of alpha in binary32 -/

theorem fadeInAlpha32_step :
    ∀ k : Nat, k < 12 →
      f32 (fadeInAlpha32 k + f32 0.08) = fadeInAlpha32 (k + 1) ∧
      fadeInAlpha32 (k + 1) ≤ f32 1.01 := by
  decide!

theorem fadeInAlpha32_last : f32 1.01 < f32 (fadeInAlpha32 12 + f32 0.08) := by
  decide!

theorem fadeOutAlpha32_step :
    ∀ j : Nat, j < 20 →
      f32 (fadeOutAlpha32 j - f32 0.05) = fadeOutAlpha32 (j + 1) ∧
      f32 (-0.01) ≤ fadeOutAlpha32 (j + 1) := by
  decide!

theorem fadeOutAlpha32_last : f32 (fadeOutAlpha32 20 - f32 0.05) < f32 (-0.01) := by
  decide!

theorem fadeInAlpha32_near :
    ∀ k : Nat, k ≤ 12 →
      0.08 * (k : ℚ) - 3 / 20000000 ≤ fadeInAlpha32 k ∧
      (1 ≤ k → fadeInAlpha32 k < 0.08 * (k : ℚ)) ∧
      0 ≤ fadeInAlpha32 k ∧ fadeInAlpha32 k < 1 := by
  decide!

theorem fadeOutAlpha32_range :
    ∀ j : Nat, j ≤ 20 →
      -21 / 134217728 ≤ fadeOutAlpha32 j ∧ fadeOutAlpha32 j ≤ 1 ∧
      (fadeOutAlpha32 j < 0 → j = 20) := by
  decide!

/-! ## A whole cycle in binary32 -/

theorem cycle32_fadeIn (E : ScreenIds) (s : State) (h : s.transFadeOut = false)
    (h0 : s.transAlpha = 0) (k : Nat) (hk : k ≤ 12) :
    (UpdateTransition32 E)^[k] s = { s with transAlpha := fadeInAlpha32 k } := by
  induction k with
  | zero =>
    cases s
    simp only [Function.iterate_zero, id_eq, fadeInAlpha32] at h0 ⊢
    simp [h0]
  | succ n ih =>
    have hstep := fadeInAlpha32_step n (by omega)
    rw [Function.iterate_succ_apply', ih (by omega), tick32_fadeIn_below]
    · simp only [State.mk.injEq, and_true, true_and]; exact hstep.1
    · exact h
    · simp only; rw [hstep.1]; exact hstep.2

theorem cycle32_swap (E : ScreenIds) (s : State) (h : s.transFadeOut = false)
    (h0 : s.transAlpha = 0) :
    (UpdateTransition32 E)^[13] s = swapped E s := by
  rw [Function.iterate_succ_apply', cycle32_fadeIn E s h h0 12 le_rfl, tick32_fadeIn_above]
  · rfl
  · exact h
  · exact fadeInAlpha32_last

theorem fadeOut32_iterate (E : ScreenIds) (s : State) (h : s.transFadeOut = true)
    (h1 : s.transAlpha = 1) (j : Nat) (hj : j ≤ 20) :
    (UpdateTransition32 E)^[j] s = { s with transAlpha := fadeOutAlpha32 j } := by
  induction j with
  | zero =>
    cases s
    simp only [Function.iterate_zero, id_eq, fadeOutAlpha32] at h1 ⊢
    simp [h1]
  | succ n ih =>
    have hstep := fadeOutAlpha32_step n (by omega)
    rw [Function.iterate_succ_apply', ih (by omega), tick32_fadeOut_above]
    · simp only [State.mk.injEq, and_true, true_and]; exact hstep.1
    · exact h
    · simp only; rw [hstep.1]; exact hstep.2

theorem fadeOut32_end (E : ScreenIds) (s : State) (h : s.transFadeOut = true)
    (h1 : s.transAlpha = 1) :
    (UpdateTransition32 E)^[21] s = settled s := by
  rw [Function.iterate_succ_apply', fadeOut32_iterate E s h h1 20 le_rfl, tick32_fadeOut_below]
  · rfl
  · exact h
  · exact fadeOutAlpha32_last

theorem cycle32_fadeOut (E : ScreenIds) (s : State) (h : s.transFadeOut = false)
    (h0 : s.transAlpha = 0) (j : Nat) (hj : j ≤ 20) :
    (UpdateTransition32 E)^[13 + j] s =
      { swapped E s with transAlpha := fadeOutAlpha32 j } := by
  rw [Nat.add_comm, Function.iterate_add_apply, cycle32_swap E s h h0,
    fadeOut32_iterate E (swapped E s) rfl rfl j hj]

theorem cycle32_active (E : ScreenIds) (s : State) (h : s.transFadeOut = false)
    (h0 : s.transAlpha = 0) (j : Nat) (hj : j < 34) :
    ((UpdateTransition32 E)^[j] s).onTransition = s.onTransition := by
  rcases Nat.lt_or_ge j 13 with hlt | hge
  · rw [cycle32_fadeIn E s h h0 j (by omega)]
  · have hj' : j = 13 + (j - 13) := by omega
    rw [hj', cycle32_fadeOut E s h h0 (j - 13) (by omega)]
    rfl

/-! ## End-to-end fade-in and fade-out in binary32 -/

/-- C1, as the code has it.  From any state whose current screen is LOGO and
whose controller is inactive, a frame in which `finish_logo_screen` reports
finished (a non-zero value) begins a transition that targets TITLE with alpha 0.
After `k` further ticks, `1 ≤ k ≤ 12`, alpha is the binary32 sum of `k` steps
`0.08f` (`fadeInAlpha32 k`), which lies below `0.08 * k` by at most 1.5e-7, the
controller is still active and fading in, and the current screen is still LOGO.
After the 13th tick alpha is exactly 1, the current screen is TITLE and the
controller is active in its fade-out phase. -/
theorem fade_in_binary32 (E : ScreenIds) (sig : Int) (s : State)
    (hcur : s.currentScreen = E.LOGO) (hoff : s.onTransition = false) (hsig : sig ≠ 0) :
    ((UpdateDrawFrame E sig s).onTransition = true ∧
      (UpdateDrawFrame E sig s).transFadeOut = false ∧
      (UpdateDrawFrame E sig s).transToScreen = E.TITLE ∧
      (UpdateDrawFrame E sig s).transAlpha = 0 ∧
      (UpdateDrawFrame E sig s).currentScreen = E.LOGO) ∧
    (∀ k : Nat, 1 ≤ k → k ≤ 12 →
      ((UpdateTransition32 E)^[k] (UpdateDrawFrame E sig s)).transAlpha = fadeInAlpha32 k ∧
      0.08 * (k : ℚ) - 3 / 20000000 ≤
        ((UpdateTransition32 E)^[k] (UpdateDrawFrame E sig s)).transAlpha ∧
      ((UpdateTransition32 E)^[k] (UpdateDrawFrame E sig s)).transAlpha < 0.08 * (k : ℚ) ∧
      ((UpdateTransition32 E)^[k] (UpdateDrawFrame E sig s)).onTransition = true ∧
      ((UpdateTransition32 E)^[k] (UpdateDrawFrame E sig s)).transFadeOut = false ∧
      ((UpdateTransition32 E)^[k] (UpdateDrawFrame E sig s)).currentScreen = E.LOGO) ∧
    (((UpdateTransition32 E)^[13] (UpdateDrawFrame E sig s)).transAlpha = 1 ∧
      ((UpdateTransition32 E)^[13] (UpdateDrawFrame E sig s)).currentScreen = E.TITLE ∧
      ((UpdateTransition32 E)^[13] (UpdateDrawFrame E sig s)).onTransition = true ∧
      ((UpdateTransition32 E)^[13] (UpdateDrawFrame E sig s)).transFadeOut = true) := by
  rw [frame_begin_logo E sig s hcur hoff hsig]
  refine ⟨by simp [TransitionToScreen, hcur], fun k h1 hk => ?_, ?_⟩
  · rw [cycle32_fadeIn E _ rfl rfl k hk]
    obtain ⟨h2, h3, _, _⟩ := fadeInAlpha32_near k hk
    exact ⟨rfl, h2, h3 h1, rfl, rfl, hcur⟩
  · rw [cycle32_swap E _ rfl rfl]
    simp [TransitionToScreen, swapped]

/-- Witness for C1 (amended): the state that `main` has set up and the finish
signal 1; alpha after the 5th tick and the screen after the 13th. -/
theorem fade_in_binary32_witness :
    ((UpdateTransition32 stdIds)^[5] (UpdateDrawFrame stdIds 1 (setup stdIds))).transAlpha
        = fadeInAlpha32 5 ∧
      ((UpdateTransition32 stdIds)^[13] (UpdateDrawFrame stdIds 1 (setup stdIds))).currentScreen
        = stdIds.TITLE :=
  have h := fade_in_binary32 stdIds 1 (setup stdIds) rfl rfl (by decide)
  ⟨(h.2.1 5 (by decide) (by decide)).1, h.2.2.2.1⟩

/-- Counterexample to C1 as stated: in the run that starts in the state set up
by `main`, with the logo screen finished in the first frame, alpha after 5 ticks
is 3355443 / 8388608 (0x1.999998p-2), not `0.08 * 5`. -/
theorem fade_in_alpha_is_not_decimal :
    ((UpdateTransition32 stdIds)^[5] (UpdateDrawFrame stdIds 1 (setup stdIds))).transAlpha
        = 3355443 / 8388608 ∧
      ¬ ((UpdateTransition32 stdIds)^[5] (UpdateDrawFrame stdIds 1 (setup stdIds))).transAlpha
        = 0.08 * 5 := by
  rw [frame_begin_logo stdIds 1 (setup stdIds) rfl rfl (by decide),
    cycle32_fadeIn stdIds _ rfl rfl 5 (by decide)]
  norm_num [fadeInAlpha32]

/-- C2, as the code has it.  From any state that is active, fading out and has
alpha 1, the controller is still active and fading out after `j` further ticks
for every `j ≤ 20`, and the 21st tick makes it inactive, with alpha 0. -/
theorem fade_out_binary32_takes_21_ticks (E : ScreenIds) (s : State)
    (hon : s.onTransition = true) (hf : s.transFadeOut = true) (h1 : s.transAlpha = 1) :
    (∀ j : Nat, j ≤ 20 →
      ((UpdateTransition32 E)^[j] s).onTransition = true ∧
      ((UpdateTransition32 E)^[j] s).transFadeOut = true) ∧
    ((UpdateTransition32 E)^[21] s).onTransition = false ∧
    ((UpdateTransition32 E)^[21] s).transAlpha = 0 := by
  refine ⟨fun j hj => ?_, ?_⟩
  · rw [fadeOut32_iterate E s hf h1 j hj]
    exact ⟨hon, hf⟩
  · rw [fadeOut32_end E s hf h1]
    exact ⟨rfl, rfl⟩

/-- Witness for C2 (amended): the fade-out that follows the fade-in from LOGO to
TITLE is over after 21 ticks. -/
theorem fade_out_binary32_takes_21_ticks_witness :
    ((UpdateTransition32 stdIds)^[21]
      (swapped stdIds (TransitionToScreen stdIds.TITLE (setup stdIds)))).onTransition = false :=
  (fade_out_binary32_takes_21_ticks stdIds
    (swapped stdIds (TransitionToScreen stdIds.TITLE (setup stdIds))) rfl rfl rfl).2.1

/-- Counterexample to C2 as stated: in the run that starts in the state set up
by `main`, with the logo screen finished in the first frame, the state after the
13 ticks of the fade-in is active, fading out, with alpha 1; 20 further ticks
leave the controller active, so it is not inactive after exactly 20 ticks. -/
theorem fade_out_binary32_not_done_after_20 :
    ((UpdateTransition32 stdIds)^[13]
        (UpdateDrawFrame stdIds 1 (setup stdIds))).onTransition = true ∧
      ((UpdateTransition32 stdIds)^[13]
        (UpdateDrawFrame stdIds 1 (setup stdIds))).transFadeOut = true ∧
      ((UpdateTransition32 stdIds)^[13]
        (UpdateDrawFrame stdIds 1 (setup stdIds))).transAlpha = 1 ∧
      ¬ ((UpdateTransition32 stdIds)^[20] ((UpdateTransition32 stdIds)^[13]
        (UpdateDrawFrame stdIds 1 (setup stdIds)))).onTransition = false := by
  rw [frame_begin_logo stdIds 1 (setup stdIds) rfl rfl (by decide),
    cycle32_swap stdIds _ rfl rfl, fadeOut32_iterate stdIds _ rfl rfl 20 le_rfl]
  simp [swapped, TransitionToScreen]

/-! ## The range of alpha in binary32 -/

theorem reach32_iterate (E : ScreenIds) (s : State) (h : Reach32 E s) (n : Nat)
    (hon : ∀ k : Nat, k < n → ((UpdateTransition32 E)^[k] s).onTransition = true) :
    Reach32 E ((UpdateTransition32 E)^[n] s) := by
  induction n with
  | zero => exact h
  | succ m ih =>
    rw [Function.iterate_succ_apply']
    exact Reach32.tick _ (ih fun k hk => hon k (Nat.lt_succ_of_lt hk))
      (hon m (Nat.lt_succ_self m))

theorem alphaOnGrid32_tick (E : ScreenIds) (s : State) (h : AlphaOnGrid32 s) :
    AlphaOnGrid32 (UpdateTransition32 E s) := by
  cases hf : s.transFadeOut with
  | false =>
    obtain ⟨k, hk, ha⟩ := h.1 hf
    rcases Nat.lt_or_ge k 12 with hlt | hge
    · obtain ⟨h1, h2⟩ := fadeInAlpha32_step k hlt
      rw [tick32_fadeIn_below E s hf (by rw [ha, h1]; exact h2)]
      refine ⟨fun _ => ⟨k + 1, hlt, by simp only [ha, h1]⟩, fun h' => ?_⟩
      simp only at h'; rw [hf] at h'; cases h'
    · have hk12 : k = 12 := le_antisymm hk hge
      subst hk12
      rw [tick32_fadeIn_above E s hf (by rw [ha]; exact fadeInAlpha32_last)]
      exact ⟨fun h' => by simp [swapped] at h', fun _ => ⟨0, by decide, rfl⟩⟩
  | true =>
    obtain ⟨j, hj, ha⟩ := h.2 hf
    rcases Nat.lt_or_ge j 20 with hlt | hge
    · obtain ⟨h1, h2⟩ := fadeOutAlpha32_step j hlt
      rw [tick32_fadeOut_above E s hf (by rw [ha, h1]; exact h2)]
      refine ⟨fun h' => ?_, fun _ => ⟨j + 1, hlt, by simp only [ha, h1]⟩⟩
      simp only at h'; rw [hf] at h'; cases h'
    · have hj20 : j = 20 := le_antisymm hj hge
      subst hj20
      rw [tick32_fadeOut_below E s hf (by rw [ha]; exact fadeOutAlpha32_last)]
      exact ⟨fun _ => ⟨0, by decide, rfl⟩, fun h' => by simp [settled] at h'⟩

theorem reach32_alphaOnGrid (E : ScreenIds) (s : State) (h : Reach32 E s) :
    AlphaOnGrid32 s := by
  induction h with
  | init => exact ⟨fun _ => ⟨0, by decide, rfl⟩,
      fun h => by simp [setup, State.log, loadState] at h⟩
  | begin t s _ _ => exact ⟨fun _ => ⟨0, by decide, rfl⟩,
      fun h => by simp [TransitionToScreen] at h⟩
  | tick s _ _ ih => exact alphaOnGrid32_tick E s ih

/-- C5, as the code has it.  In every state reachable from the initial state by
begin calls with any target and tick calls (tick only while active), alpha
satisfies `-21 / 2^27 ≤ alpha ≤ 1`.  It never exceeds 1, and the only negative
value it holds is `-21 / 2^27` (about -1.6e-7), in the fade-out phase: the value
left by the 20th tick of a fade-out. -/
theorem alpha_range_binary32 (E : ScreenIds) (s : State) (h : Reach32 E s) :
    -21 / 134217728 ≤ s.transAlpha ∧ s.transAlpha ≤ 1 ∧
      (s.transAlpha < 0 → s.transFadeOut = true ∧ s.transAlpha = -21 / 134217728) := by
  have hg := reach32_alphaOnGrid E s h
  cases hf : s.transFadeOut with
  | false =>
    obtain ⟨k, hk, ha⟩ := hg.1 hf
    obtain ⟨_, _, h3, h4⟩ := fadeInAlpha32_near k hk
    rw [ha]
    exact ⟨by linarith, h4.le, fun hneg => absurd hneg (not_lt.mpr h3)⟩
  | true =>
    obtain ⟨j, hj, ha⟩ := hg.2 hf
    obtain ⟨h1, h2, h3⟩ := fadeOutAlpha32_range j hj
    rw [ha]
    refine ⟨h1, h2, fun hneg => ⟨rfl, ?_⟩⟩
    rw [h3 hneg]
    rfl

/-- Witness for C5 (amended): the state after begin and 33 ticks. -/
theorem alpha_range_binary32_witness :
    -21 / 134217728 ≤ ((UpdateTransition32 stdIds)^[33]
        (TransitionToScreen stdIds.TITLE (setup stdIds))).transAlpha ∧
      ((UpdateTransition32 stdIds)^[33]
        (TransitionToScreen stdIds.TITLE (setup stdIds))).transAlpha ≤ 1 :=
  have h := alpha_range_binary32 stdIds _
    (reach32_iterate stdIds _ (Reach32.begin stdIds.TITLE _ Reach32.init) 33
      (fun k hk => cycle32_active stdIds _ rfl rfl k (by omega)))
  ⟨h.1, h.2.1⟩

/-- Counterexample to C5 as stated: the state after begin and 33 ticks (13 of
the fade-in, 20 of the fade-out) is reachable, its controller is active, and
its alpha is `-21 / 2^27`, below 0. -/
theorem alpha_negative_after_33_ticks :
    Reach32 stdIds ((UpdateTransition32 stdIds)^[33]
        (TransitionToScreen stdIds.TITLE (setup stdIds))) ∧
      ((UpdateTransition32 stdIds)^[33]
        (TransitionToScreen stdIds.TITLE (setup stdIds))).onTransition = true ∧
      ((UpdateTransition32 stdIds)^[33]
        (TransitionToScreen stdIds.TITLE (setup stdIds))).transAlpha = -21 / 134217728 ∧
      ¬ 0 ≤ ((UpdateTransition32 stdIds)^[33]
        (TransitionToScreen stdIds.TITLE (setup stdIds))).transAlpha := by
  refine ⟨reach32_iterate stdIds _ (Reach32.begin stdIds.TITLE _ Reach32.init) 33
      (fun k hk => cycle32_active stdIds _ rfl rfl k (by omega)), ?_⟩
  have h33 : (33 : Nat) = 13 + 20 := rfl
  rw [h33, cycle32_fadeOut stdIds _ rfl rfl 20 le_rfl]
  refine ⟨rfl, rfl, ?_⟩
  norm_num [fadeOutAlpha32]

/-! ## One tick in binary32, for every state -/

/-- C18, as the code has it.  For every state whose alpha lies between the
code's thresholds, `-0.01f ≤ alpha ≤ 1.01f` — in particular for every state with
`0 ≤ alpha ≤ 1` —, in either phase, the state after one tick again satisfies
`-0.01f ≤ alpha ≤ 1.01f`. -/
theorem tick_binary32_preserves_band (E : ScreenIds) (s : State)
    (h0 : f32 (-0.01) ≤ s.transAlpha) (h1 : s.transAlpha ≤ f32 1.01) :
    f32 (-0.01) ≤ (UpdateTransition32 E s).transAlpha ∧
      (UpdateTransition32 E s).transAlpha ≤ f32 1.01 := by
  have hlo : f32 (-0.01) ≤ 0 := by rw [litm001]; norm_num
  have hhi : (1 : ℚ) ≤ f32 1.01 := by rw [lit101]; norm_num
  cases hf : s.transFadeOut with
  | false =>
    by_cases ha : f32 1.01 < f32 (s.transAlpha + f32 0.08)
    · rw [tick32_fadeIn_above E s hf ha]
      exact ⟨hlo.trans (by norm_num [swapped]), hhi⟩
    · rw [tick32_fadeIn_below E s hf (le_of_not_lt ha)]
      refine ⟨hlo.trans (f32_nonneg _ ?_), le_of_not_lt ha⟩
      rw [litm001] at h0
      rw [lit008]
      linarith
  | true =>
    by_cases ha : f32 (s.transAlpha - f32 0.05) < f32 (-0.01)
    · rw [tick32_fadeOut_below E s hf ha]
      exact ⟨hlo, (by norm_num [settled] : (0 : ℚ) ≤ 1).trans hhi⟩
    · rw [tick32_fadeOut_above E s hf (le_of_not_lt ha)]
      refine ⟨le_of_not_lt ha, (f32_le_one _ ?_).trans hhi⟩
      rw [lit101] at h1
      rw [lit005]
      linarith

/-- Witness for C18 (amended): fading in at alpha 119 / 128. -/
theorem tick_binary32_preserves_band_witness :
    f32 (-0.01) ≤ (UpdateTransition32 stdIds (fadingInAt (119 / 128))).transAlpha ∧
      (UpdateTransition32 stdIds (fadingInAt (119 / 128))).transAlpha ≤ f32 1.01 :=
  tick_binary32_preserves_band stdIds (fadingInAt (119 / 128))
    (by rw [litm001]; norm_num [fadingInAt]) (by rw [lit101]; norm_num [fadingInAt])

/-- Counterexample to C18 as stated, at alphas that are binary32 numbers inside
[0, 1]: a tick of the fade-in at alpha 119 / 128 stores 8469873 / 2^23, above 1,
and a tick of the fade-out at alpha 3 / 64 stores -838861 / 2^28, below 0. -/
theorem tick_binary32_leaves_unit_range :
    (f32 (119 / 128) = 119 / 128 ∧
      0 ≤ (fadingInAt (119 / 128)).transAlpha ∧ (fadingInAt (119 / 128)).transAlpha ≤ 1 ∧
      (UpdateTransition32 stdIds (fadingInAt (119 / 128))).transAlpha = 8469873 / 8388608 ∧
      ¬ (UpdateTransition32 stdIds (fadingInAt (119 / 128))).transAlpha ≤ 1) ∧
    (f32 (3 / 64) = 3 / 64 ∧
      0 ≤ (fadingOutAt (3 / 64)).transAlpha ∧ (fadingOutAt (3 / 64)).transAlpha ≤ 1 ∧
      (UpdateTransition32 stdIds (fadingOutAt (3 / 64))).transAlpha = -838861 / 268435456 ∧
      ¬ 0 ≤ (UpdateTransition32 stdIds (fadingOutAt (3 / 64))).transAlpha) := by
  have hin : f32 ((fadingInAt (119 / 128)).transAlpha + f32 0.08) = 8469873 / 8388608 := by
    decide!
  have hout : f32 ((fadingOutAt (3 / 64)).transAlpha - f32 0.05) = -838861 / 268435456 := by
    decide!
  rw [tick32_fadeIn_below stdIds _ rfl (by rw [hin, lit101]; norm_num),
    tick32_fadeOut_above stdIds _ rfl (by rw [hout, litm001]; norm_num)]
  refine ⟨⟨by decide!, by norm_num [fadingInAt], by norm_num [fadingInAt], hin, ?_⟩,
    ⟨by decide!, by norm_num [fadingOutAt], by norm_num [fadingOutAt], hout, ?_⟩⟩
  · simp only [hin]; norm_num
  · simp only [hout]; norm_num

/-! ## The binary32 tick shadows the exact one -/

/-- Every state that begin and the binary32 tick reach has a counterpart that
begin and the exact tick reach, with the same discrete variables and the same
trace: the two arithmetics take the same branch at every tick of a run. -/
theorem binary32_shadows_exact (E : ScreenIds) (s : State) (h : Reach32 E s) :
    ∃ s' : State, Reach E s' ∧ s'.discrete = s.discrete ∧
      (s.transFadeOut = false →
        ∃ k : Nat, k ≤ 12 ∧ s.transAlpha = fadeInAlpha32 k ∧ s'.transAlpha = 0.08 * k) ∧
      (s.transFadeOut = true →
        ∃ j : Nat, j ≤ 20 ∧ s.transAlpha = fadeOutAlpha32 j ∧ s'.transAlpha = 1 - 0.05 * j) := by
  induction h with
  | init =>
    exact ⟨setup E, Reach.init, rfl, fun _ => ⟨0, by decide, rfl, by simp [setup, State.log,
      loadState]⟩, fun h => by simp [setup, State.log, loadState] at h⟩
  | begin t s _ ih =>
    obtain ⟨s', hr, hd, _, _⟩ := ih
    simp only [State.discrete, Prod.mk.injEq] at hd
    obtain ⟨c1, c2, c3, c4, c5, c6⟩ := hd
    exact ⟨TransitionToScreen t s', Reach.begin t s' hr,
      by simp [State.discrete, TransitionToScreen, c1, c6],
      fun _ => ⟨0, by decide, rfl, by simp [TransitionToScreen]⟩,
      fun h => by simp [TransitionToScreen] at h⟩
  | tick s _ hon ih =>
    obtain ⟨s', hr, hd, hin, hout⟩ := ih
    simp only [State.discrete, Prod.mk.injEq] at hd
    obtain ⟨c1, c2, c3, c4, c5, c6⟩ := hd
    have hon' : s'.onTransition = true := by rw [c2, hon]
    refine ⟨UpdateTransition E s', Reach.tick s' hr hon', ?_⟩
    cases hf : s.transFadeOut with
    | false =>
      have hf' : s'.transFadeOut = false := by rw [c3, hf]
      obtain ⟨k, hk, ha, ha'⟩ := hin hf
      rcases Nat.lt_or_ge k 12 with hlt | hge
      · obtain ⟨h1, h2⟩ := fadeInAlpha32_step k hlt
        have hq : (k : ℚ) ≤ 11 := by exact_mod_cast Nat.le_of_lt_succ hlt
        rw [tick32_fadeIn_below E s hf (by rw [ha, h1]; exact h2),
          tick_fadeIn_below E s' hf' (by rw [ha']; linarith)]
        refine ⟨by simp [State.discrete, c1, c2, c3, c4, c5, c6],
          fun _ => ⟨k + 1, hlt, by simp only [ha, h1], ?_⟩, fun h' => ?_⟩
        · simp only [ha']; push_cast; ring
        · simp only at h'; rw [hf] at h'; cases h'
      · have hk12 : k = 12 := le_antisymm hk hge
        subst hk12
        rw [tick32_fadeIn_above E s hf (by rw [ha]; exact fadeInAlpha32_last),
          tick_fadeIn_above E s' hf' (by rw [ha']; norm_num)]
        exact ⟨by simp [State.discrete, swapped, c4, c5, c6, c2],
          fun h' => by simp [swapped] at h',
          fun _ => ⟨0, by decide, rfl, by simp⟩⟩
    | true =>
      have hf' : s'.transFadeOut = true := by rw [c3, hf]
      obtain ⟨j, hj, ha, ha'⟩ := hout hf
      rcases Nat.lt_or_ge j 20 with hlt | hge
      · obtain ⟨h1, h2⟩ := fadeOutAlpha32_step j hlt
        have hq : (j : ℚ) ≤ 19 := by exact_mod_cast Nat.le_of_lt_succ hlt
        rw [tick32_fadeOut_above E s hf (by rw [ha, h1]; exact h2),
          tick_fadeOut_above E s' hf' (by rw [ha']; linarith)]
        refine ⟨by simp [State.discrete, c1, c2, c3, c4, c5, c6],
          fun h' => ?_, fun _ => ⟨j + 1, hlt, by simp only [ha, h1], ?_⟩⟩
        · simp only at h'; rw [hf] at h'; cases h'
        · simp only [ha']; push_cast; ring
      · have hj20 : j = 20 := le_antisymm hj hge
        subst hj20
        rw [tick32_fadeOut_below E s hf (by rw [ha]; exact fadeOutAlpha32_last),
          tick_fadeOut_below E s' hf' (by rw [ha']; norm_num)]
        exact ⟨by simp [State.discrete, settled, c1, c6],
          fun _ => ⟨0, by decide, rfl, by simp⟩,
          fun h' => by simp [settled] at h'⟩

/-! ## Arbitrary step sizes in binary32 -/

theorem tickWith32_code (E : ScreenIds) (s : State) :
    tickWith32 E (f32 0.08) (f32 0.05) s = UpdateTransition32 E s := rfl

end StrangeStar
